import Mathlib

/-!
Shallow embedding of the archive-analyzer ZIP structural parser
(src/util.rs, src/errors.rs, src/zip/constants.rs, src/zip/model.rs,
src/zip/reader.rs).

The byte source is a `List Nat` of bytes together with a cursor position;
`read_chunk` returns the bytes actually available (a short list at end of
input) and the advanced cursor, mirroring `Read::take(..).read_to_end`.
Every reader returns its result paired with the new cursor position.
Rust `Result<_, String>` errors are `RError.err`; Rust panics (the
`try_into().unwrap()` calls on length chunks and `char::from_u32(..).unwrap()`
in `read_string_bytes`) are `RError.fatal`, which the walker never catches,
exactly as a panic unwinds past the walker's `Result` handling.
Strings decoded by `read_string_bytes` are represented by their lists of
code points (for byte input the conversion is the identity embedding,
proved below for claim C10). The unbounded Rust `while`/`loop`s take a
fuel parameter; the top-level entry point passes `input.length + 1`.
-/

set_option linter.unusedVariables false

/-- Rust panics versus ordinary `Err(String)` values. -/
inductive RError where
  | fatal (msg : String)
  | err (msg : String)
deriving DecidableEq

/-- errors.rs: error type of the primitive little-endian decoders. -/
inductive ReadNumberFromBytesError where
  | TooManyBytes
  | NotEnoughBytes
deriving DecidableEq

/-- util.rs `read_chunk`: read up to `chunk_size` bytes from the cursor,
returning the bytes obtained (short at end of input) and the new position. -/
def read_chunk (input : List Nat) (pos : Nat) (chunk_size : Nat) : List Nat × Nat :=
  let chunk := (input.drop pos).take chunk_size
  (chunk, pos + chunk.length)

/-- util.rs `read_u32_le`: decode exactly 4 little-endian bytes. -/
def read_u32_le (chunk : List Nat) : Except ReadNumberFromBytesError Nat :=
  match chunk with
  | [b0, b1, b2, b3] => .ok (b0 + b1 * 256 + b2 * 65536 + b3 * 16777216)
  | c => if c.length > 4 then .error .TooManyBytes else .error .NotEnoughBytes

/-- util.rs `read_u16_le`: decode exactly 2 little-endian bytes. -/
def read_u16_le (chunk : List Nat) : Except ReadNumberFromBytesError Nat :=
  match chunk with
  | [b0, b1] => .ok (b0 + b1 * 256)
  | c => if c.length > 2 then .error .TooManyBytes else .error .NotEnoughBytes

/-- Rust `u16::from_le_bytes(chunk.try_into().unwrap())` as used at
reader.rs lines 25 and 27: `none` models the panic on a chunk whose
length is not exactly 2. -/
def u16_from_le_bytes (chunk : List Nat) : Option Nat :=
  match chunk with
  | [b0, b1] => some (b0 + b1 * 256)
  | _ => none

/-- Rust `char::from_u32`: `none` exactly for surrogates and values above
the maximum scalar value. The resulting char is represented by its code
point. -/
def char_from_u32 (n : Nat) : Option Nat :=
  if 1114112 ≤ n ∨ (55296 ≤ n ∧ n ≤ 57343) then none else some n

/-- util.rs `read_string_bytes`: push `char::from_u32(byte).unwrap()` for
each byte; `none` models the panic on an invalid scalar value. The string
is represented by its list of code points. -/
def read_string_bytes : List Nat → Option (List Nat)
  | [] => some []
  | b :: rest =>
    match char_from_u32 b, read_string_bytes rest with
    | some c, some s => some (c :: s)
    | _, _ => none

/-- util.rs `rewind_file_cursor`: move the cursor back `number_of_bytes`. -/
def rewind_file_cursor (pos : Nat) (number_of_bytes : Nat) : Nat :=
  pos - number_of_bytes

/-- util.rs `file_has_remaining_space`: `end_of_file - current_offset >
number_of_bytes` (strict comparison, as in the source). -/
def file_has_remaining_space (input : List Nat) (pos : Nat) (number_of_bytes : Nat) : Bool :=
  decide (input.length - pos > number_of_bytes)

/-- util.rs `compare_signature_raw`: compare an already-read 4-byte chunk
to a signature; on a mismatch rewind the cursor 4 bytes when asked to; on
an undecodable chunk return the error without rewinding. -/
def compare_signature_raw (input : List Nat) (pos : Nat) (signature_1 : List Nat)
    (signature_2 : Nat) (rewind_on_mismatch : Bool) : Except RError Bool × Nat :=
  match read_u32_le signature_1 with
  | .error _ => (.error (.err "Unable to compare signature"), pos)
  | .ok value =>
    if value = signature_2 then (.ok true, pos)
    else if rewind_on_mismatch then (.ok false, rewind_file_cursor pos 4)
    else (.ok false, pos)

/-- util.rs `compare_signature`: read 4 bytes and compare, rewinding on a
mismatch. -/
def compare_signature (input : List Nat) (pos : Nat) (signature : Nat) :
    Except RError Bool × Nat :=
  let (chunk, p1) := read_chunk input pos 4
  compare_signature_raw input p1 chunk signature true

/-- constants.rs `SIGNATURE_HEADER_LOCAL_FILE`. -/
def SIGNATURE_HEADER_LOCAL_FILE : Nat := 67324752

/-- constants.rs `SIGNATURE_ARCHIVE_EXTRA_DATA_RECORD`. -/
def SIGNATURE_ARCHIVE_EXTRA_DATA_RECORD : Nat := 1347094024

/-- constants.rs `SIGNATURE_HEADER_CENTRAL_DIRECTORY`. -/
def SIGNATURE_HEADER_CENTRAL_DIRECTORY : Nat := 1347092738

/-- constants.rs `SIGNATURE_CENTRAL_DIRECTORY_DIGITAL_SIGNATURE`. -/
def SIGNATURE_CENTRAL_DIRECTORY_DIGITAL_SIGNATURE : Nat := 1347093765

/-- constants.rs `SIGNATURE_END_OF_CENTRAL_DIRECTORY_RECORD`. -/
def SIGNATURE_END_OF_CENTRAL_DIRECTORY_RECORD : Nat := 1347093766

/-- model.rs `LocalFileHeader`. -/
structure LocalFileHeader where
  minimum_version : Nat
  general_purpose_flag : Nat
  compression_method : Nat
  file_last_modification_time : Nat
  file_last_modification_date : Nat
  crc32 : Nat
  compressed_size : Nat
  uncompressed_size : Nat
  filename : List Nat
  extra_field : List Nat
deriving DecidableEq

/-- model.rs `DataDescriptor`. -/
structure DataDescriptor where
  crc32 : Nat
  compressed_size : Nat
  uncompressed_size : Nat
deriving DecidableEq

/-- model.rs `StoredFile`. -/
structure StoredFile where
  local_file_header : LocalFileHeader
  file_data : List Nat
  data_descriptor : Option DataDescriptor
  position : Nat
  found_in_central_directory : Bool
  offset_in_archive : Nat
  offset_from_central_directory : Option Nat
deriving DecidableEq

/-- model.rs `ArchiveExtraDataRecord`. -/
structure ArchiveExtraDataRecord where
  extra_field : List Nat
deriving DecidableEq

/-- model.rs `CentralDirectoryFileHeader`. -/
structure CentralDirectoryFileHeader where
  version_made_by : Nat
  minimum_version : Nat
  general_purpose_flag : Nat
  compression_method : Nat
  file_last_modification_time : Nat
  file_last_modification_date : Nat
  crc32 : Nat
  compressed_size : Nat
  uncompressed_size : Nat
  disk_start : Nat
  internal_file_attributes : Nat
  external_file_attributes : Nat
  local_file_header_offset : Nat
  filename : List Nat
  extra_field : List Nat
  file_comment : List Nat
  position : Option Nat
deriving DecidableEq

/-- model.rs `DigitalSignature`. -/
structure DigitalSignature where
  signature_data : List Nat
deriving DecidableEq

/-- model.rs `EndOfCentralDirectoryRecord`. -/
structure EndOfCentralDirectoryRecord where
  disk_number : Nat
  disk_start_central_directory : Nat
  central_directory_records_number_on_disk : Nat
  central_directory_records_total_number : Nat
  central_directory_size : Nat
  offset_start_central_directory : Nat
  comment : List Nat
deriving DecidableEq

/-- model.rs `CentralDirectory`. -/
structure CentralDirectory where
  file_headers : List CentralDirectoryFileHeader
  digital_signature : Option DigitalSignature
  end_of_central_directory_record : EndOfCentralDirectoryRecord
  offset_from_start_of_archive : Nat
deriving DecidableEq

/-- model.rs `ZipFile`. -/
structure ZipFile where
  stored_files : List StoredFile
  archive_extra_data_record : Option ArchiveExtraDataRecord
  central_directory : Option CentralDirectory
deriving DecidableEq

/-- One step of the reconciler's scan over the central directory's file
headers (the body of the `for` loop in model.rs
`StoredFile::update_from_central_directory`). -/
def StoredFile.update_step (central_directory : CentralDirectory) (s : StoredFile)
    (h : CentralDirectoryFileHeader) : StoredFile :=
  if h.filename = s.local_file_header.filename then
    { s with
      found_in_central_directory := true,
      offset_from_central_directory :=
        some (central_directory.offset_from_start_of_archive - s.offset_in_archive) }
  else s

/-- model.rs `StoredFile::update_from_central_directory`. -/
def StoredFile.update_from_central_directory (sf : StoredFile)
    (central_directory : CentralDirectory) : StoredFile :=
  central_directory.file_headers.foldl (StoredFile.update_step central_directory) sf

/-- The error cascade and construction of reader.rs
`LocalFileHeaderReader::read` (lines 31-69): decoding the already-read
chunks does not move the cursor, so this stage carries the cursor position
through unchanged. -/
def LocalFileHeaderReader.parse (minimum_version_chunk general_purpose_flag_chunk
    compression_method_chunk file_last_modification_time_chunk
    file_last_modification_date_chunk crc32_chunk compressed_size_chunk
    uncompressed_size_chunk filename_chunk extra_field_chunk : List Nat) (pos : Nat) :
    Except RError LocalFileHeader × Nat :=
  match read_u16_le minimum_version_chunk with
  | .error _ => (.error (.err "Unable to read Local File Header: unreadable minimum version."), pos)
  | .ok minimum_version =>
  match read_u16_le general_purpose_flag_chunk with
  | .error _ => (.error (.err "Unable to read Local File Header: unreadable general purpose flag."), pos)
  | .ok general_purpose_flag =>
  match read_u16_le compression_method_chunk with
  | .error _ => (.error (.err "Unable to read Local File Header: unreadable compression method."), pos)
  | .ok compression_method =>
  match read_u16_le file_last_modification_time_chunk with
  | .error _ => (.error (.err "Unable to read Local File Header: unreadable file last modification time."), pos)
  | .ok file_last_modification_time =>
  match read_u16_le file_last_modification_date_chunk with
  | .error _ => (.error (.err "Unable to read Local File Header: unreadable file last modification date."), pos)
  | .ok file_last_modification_date =>
  match read_u32_le crc32_chunk with
  | .error _ => (.error (.err "Unable to read Local File Header: unreadable crc32."), pos)
  | .ok crc32 =>
  match read_u32_le compressed_size_chunk with
  | .error _ => (.error (.err "Unable to read Local File Header: unreadable compressed size."), pos)
  | .ok compressed_size =>
  match read_u32_le uncompressed_size_chunk with
  | .error _ => (.error (.err "Unable to read Local File Header: unreadable uncompressed size."), pos)
  | .ok uncompressed_size =>
  match read_string_bytes filename_chunk with
  | none => (.error (.fatal "char conversion failed in filename"), pos)
  | some filename =>
    (.ok { minimum_version, general_purpose_flag, compression_method,
           file_last_modification_time, file_last_modification_date,
           crc32, compressed_size, uncompressed_size,
           filename, extra_field := extra_field_chunk }, pos)

/-- reader.rs `LocalFileHeaderReader::read`: read the fixed chunks and the
two variable tails, then run the error cascade. The two
`try_into().unwrap()` calls on the length chunks and the
`char::from_u32(..).unwrap()` inside `read_string_bytes` are modelled as
`RError.fatal`. -/
def LocalFileHeaderReader.read (input : List Nat) (pos : Nat) :
    Except RError LocalFileHeader × Nat :=
  let (minimum_version_chunk, p1) := read_chunk input pos 2
  let (general_purpose_flag_chunk, p2) := read_chunk input p1 2
  let (compression_method_chunk, p3) := read_chunk input p2 2
  let (file_last_modification_time_chunk, p4) := read_chunk input p3 2
  let (file_last_modification_date_chunk, p5) := read_chunk input p4 2
  let (crc32_chunk, p6) := read_chunk input p5 4
  let (compressed_size_chunk, p7) := read_chunk input p6 4
  let (uncompressed_size_chunk, p8) := read_chunk input p7 4
  let (filename_length_chunk, p9) := read_chunk input p8 2
  match u16_from_le_bytes filename_length_chunk with
  | none => (.error (.fatal "try_into failed on filename length chunk"), p9)
  | some filename_length =>
  let (extra_fields_length_chunk, p10) := read_chunk input p9 2
  match u16_from_le_bytes extra_fields_length_chunk with
  | none => (.error (.fatal "try_into failed on extra field length chunk"), p10)
  | some extra_fields_length =>
  let (filename_chunk, p11) := read_chunk input p10 filename_length
  let (extra_field_chunk, p12) := read_chunk input p11 extra_fields_length
  LocalFileHeaderReader.parse minimum_version_chunk general_purpose_flag_chunk
    compression_method_chunk file_last_modification_time_chunk
    file_last_modification_date_chunk crc32_chunk compressed_size_chunk
    uncompressed_size_chunk filename_chunk extra_field_chunk p12

/-- reader.rs `DataDescriptorReader::read`. -/
def DataDescriptorReader.read (input : List Nat) (pos : Nat) :
    Except RError DataDescriptor × Nat :=
  let (crc32_chunk, p1) := read_chunk input pos 4
  let (compressed_size_chunk, p2) := read_chunk input p1 4
  let (uncompressed_size_chunk, p3) := read_chunk input p2 4
  match read_u32_le crc32_chunk with
  | .error _ => (.error (.err "Unable to read DataDescriptor: unreadable crc32"), p3)
  | .ok crc32 =>
  match read_u32_le compressed_size_chunk with
  | .error _ => (.error (.err "Unable to read DataDescriptor: unreadable compressed size"), p3)
  | .ok compressed_size =>
  match read_u32_le uncompressed_size_chunk with
  | .error _ => (.error (.err "Unable to read DataDescriptor: unreadable uncompressed size"), p3)
  | .ok uncompressed_size =>
    (.ok { crc32, compressed_size, uncompressed_size }, p3)

/-- reader.rs `StoredFileReader::read`: the 4-byte signature was already
consumed by the caller, so the recorded offset is the cursor minus 4. The
data descriptor is read when `general_purpose_flag & 4 == 4` (the mask the
source actually uses). -/
def StoredFileReader.read (input : List Nat) (pos : Nat) (position : Nat) :
    Except RError StoredFile × Nat :=
  let offset_in_archive := pos - 4
  match LocalFileHeaderReader.read input pos with
  | (.error e, p1) => (.error e, p1)
  | (.ok local_file_header, p1) =>
    let (file_data, p2) := read_chunk input p1 local_file_header.compressed_size
    if local_file_header.general_purpose_flag &&& 4 = 4 then
      match DataDescriptorReader.read input p2 with
      | (.error e, p3) => (.error e, p3)
      | (.ok dd, p3) =>
        (.ok { local_file_header, file_data, data_descriptor := some dd, position,
               found_in_central_directory := false, offset_in_archive,
               offset_from_central_directory := none }, p3)
    else
      (.ok { local_file_header, file_data, data_descriptor := none, position,
             found_in_central_directory := false, offset_in_archive,
             offset_from_central_directory := none }, p2)

/-- reader.rs `ArchiveExtraDataRecordReader::read`. -/
def ArchiveExtraDataRecordReader.read (input : List Nat) (pos : Nat) :
    Except RError ArchiveExtraDataRecord × Nat :=
  let (extra_field_length_chunk, p1) := read_chunk input pos 4
  match read_u32_le extra_field_length_chunk with
  | .error _ =>
    (.error (.err "Unable to read the archive extra data record: unreadable extra field length"), p1)
  | .ok extra_field_length =>
    let (extra_field, p2) := read_chunk input p1 extra_field_length
    (.ok { extra_field }, p2)

/-- reader.rs `CentralDirectoryFileHeaderReader::read`. -/
def CentralDirectoryFileHeaderReader.read (input : List Nat) (pos : Nat) :
    Except RError CentralDirectoryFileHeader × Nat :=
  let (version_made_by_chunk, p1) := read_chunk input pos 2
  let (minimum_version_chunk, p2) := read_chunk input p1 2
  let (general_purpose_flag_chunk, p3) := read_chunk input p2 2
  let (compression_method_chunk, p4) := read_chunk input p3 2
  let (file_last_modification_time_chunk, p5) := read_chunk input p4 2
  let (file_last_modification_date_chunk, p6) := read_chunk input p5 2
  let (crc32_chunk, p7) := read_chunk input p6 4
  let (compressed_size_chunk, p8) := read_chunk input p7 4
  let (uncompressed_size_chunk, p9) := read_chunk input p8 4
  let (filename_length_chunk, p10) := read_chunk input p9 2
  let (extra_field_length_chunk, p11) := read_chunk input p10 2
  let (file_comment_length_chunk, p12) := read_chunk input p11 2
  let (disk_number_where_file_starts_chunk, p13) := read_chunk input p12 2
  let (internal_file_attributes_chunk, p14) := read_chunk input p13 2
  let (external_file_attributes_chunk, p15) := read_chunk input p14 4
  let (relative_offset_of_local_header_chunk, p16) := read_chunk input p15 4
  match read_u16_le version_made_by_chunk with
  | .error _ => (.error (.err "Unable to read the central directory file header: unreadable version made by"), p16)
  | .ok version_made_by =>
  match read_u16_le minimum_version_chunk with
  | .error _ => (.error (.err "Unable to read the central directory file header: unreadable minimum version"), p16)
  | .ok minimum_version =>
  match read_u16_le general_purpose_flag_chunk with
  | .error _ => (.error (.err "Unable to read the central directory file header: unreadable general purpose flag"), p16)
  | .ok general_purpose_flag =>
  match read_u16_le compression_method_chunk with
  | .error _ => (.error (.err "Unable to read the central directory file header: unreadable compression method"), p16)
  | .ok compression_method =>
  match read_u16_le file_last_modification_time_chunk with
  | .error _ => (.error (.err "Unable to read the central directory file header: unreadable file last modification time"), p16)
  | .ok file_last_modification_time =>
  match read_u16_le file_last_modification_date_chunk with
  | .error _ => (.error (.err "Unable to read the central directory file header: unreadable file last modification date"), p16)
  | .ok file_last_modification_date =>
  match read_u32_le crc32_chunk with
  | .error _ => (.error (.err "Unable to read the central directory file header: unreadable crc32"), p16)
  | .ok crc32 =>
  match read_u32_le compressed_size_chunk with
  | .error _ => (.error (.err "Unable to read the central directory file header: unreadable compressed size"), p16)
  | .ok compressed_size =>
  match read_u32_le uncompressed_size_chunk with
  | .error _ => (.error (.err "Unable to read the central directory file header: unreadable uncompressed size"), p16)
  | .ok uncompressed_size =>
  match read_u16_le filename_length_chunk with
  | .error _ => (.error (.err "Unable to read the central directory file header: unreadable filename length"), p16)
  | .ok filename_length =>
  match read_u16_le extra_field_length_chunk with
  | .error _ => (.error (.err "Unable to read the central directory file header: unreadable extra field length"), p16)
  | .ok extra_field_length =>
  match read_u16_le file_comment_length_chunk with
  | .error _ => (.error (.err "Unable to read the central directory file header: unreadable file comment length"), p16)
  | .ok file_comment_length =>
  match read_u16_le disk_number_where_file_starts_chunk with
  | .error _ => (.error (.err "Unable to read the central directory file header: unreadable disk number where file starts"), p16)
  | .ok disk_number_where_file_starts =>
  match read_u16_le internal_file_attributes_chunk with
  | .error _ => (.error (.err "Unable to read the central directory file header: unreadable internal file attributes"), p16)
  | .ok internal_file_attributes =>
  match read_u32_le external_file_attributes_chunk with
  | .error _ => (.error (.err "Unable to read the central directory file header: unreadable external file attributes"), p16)
  | .ok external_file_attributes =>
  match read_u32_le relative_offset_of_local_header_chunk with
  | .error _ => (.error (.err "Unable to read the central directory file header: unreadable internal file attributes"), p16)
  | .ok relative_offset_of_local_header =>
  let (filename_chunk, p17) := read_chunk input p16 filename_length
  let (extra_field_chunk, p18) := read_chunk input p17 extra_field_length
  let (file_comment_chunk, p19) := read_chunk input p18 file_comment_length
  match read_string_bytes filename_chunk with
  | none => (.error (.fatal "char conversion failed in filename"), p19)
  | some filename =>
  match read_string_bytes file_comment_chunk with
  | none => (.error (.fatal "char conversion failed in file comment"), p19)
  | some file_comment =>
    (.ok { version_made_by, minimum_version, general_purpose_flag, compression_method,
           file_last_modification_time, file_last_modification_date,
           crc32, compressed_size, uncompressed_size,
           disk_start := disk_number_where_file_starts,
           internal_file_attributes, external_file_attributes,
           local_file_header_offset := relative_offset_of_local_header,
           filename, extra_field := extra_field_chunk, file_comment,
           position := none }, p19)

/-- reader.rs `DigitalSignatureReader::read`. -/
def DigitalSignatureReader.read (input : List Nat) (pos : Nat) :
    Except RError DigitalSignature × Nat :=
  let (size_of_data_chunk, p1) := read_chunk input pos 2
  match read_u16_le size_of_data_chunk with
  | .error _ => (.error (.err "Unable to read digital signature: unreadable size of data"), p1)
  | .ok size_of_data =>
    let (signature_data_chunk, p2) := read_chunk input p1 size_of_data
    (.ok { signature_data := signature_data_chunk }, p2)

/-- reader.rs `EndOfCentralDirectoryRecordReader::read`. -/
def EndOfCentralDirectoryRecordReader.read (input : List Nat) (pos : Nat) :
    Except RError EndOfCentralDirectoryRecord × Nat :=
  let (number_of_this_disk_chunk, p1) := read_chunk input pos 2
  let (disk_where_central_directory_starts_chunk, p2) := read_chunk input p1 2
  let (number_on_this_disk_chunk, p3) := read_chunk input p2 2
  let (total_number_chunk, p4) := read_chunk input p3 2
  let (size_of_central_directory_chunk, p5) := read_chunk input p4 4
  let (offset_start_chunk, p6) := read_chunk input p5 4
  let (comment_length_chunk, p7) := read_chunk input p6 2
  match read_u16_le comment_length_chunk with
  | .error _ => (.error (.err "Unable to read end of central directory: unreadable comment length"), p7)
  | .ok comment_length =>
  let (comment_chunk, p8) := read_chunk input p7 comment_length
  match read_string_bytes comment_chunk with
  | none => (.error (.fatal "char conversion failed in comment"), p8)
  | some comment =>
  match read_u16_le number_of_this_disk_chunk with
  | .error _ => (.error (.err "Unable to read end of central directory: unreadable disk number"), p8)
  | .ok number_of_this_disk =>
  match read_u16_le disk_where_central_directory_starts_chunk with
  | .error _ => (.error (.err "Unable to read end of central directory: unreadable disk where central directory starts"), p8)
  | .ok disk_where_central_directory_starts =>
  match read_u16_le number_on_this_disk_chunk with
  | .error _ => (.error (.err "Unable to read end of central directory: unreadable number of central directory records on this disk"), p8)
  | .ok number_on_this_disk =>
  match read_u16_le total_number_chunk with
  | .error _ => (.error (.err "Unable to read end of central directory: unreadable total number or central directory records"), p8)
  | .ok total_number =>
  match read_u32_le size_of_central_directory_chunk with
  | .error _ => (.error (.err "Unable to read end of central directory: unreadable size of central directory"), p8)
  | .ok size_of_central_directory =>
  match read_u32_le offset_start_chunk with
  | .error _ => (.error (.err "Unable to read end of central directory: unreadable offset of start of central directory from archive"), p8)
  | .ok offset_start =>
    (.ok { disk_number := number_of_this_disk,
           disk_start_central_directory := disk_where_central_directory_starts,
           central_directory_records_number_on_disk := number_on_this_disk,
           central_directory_records_total_number := total_number,
           central_directory_size := size_of_central_directory,
           offset_start_central_directory := offset_start,
           comment }, p8)

/-- The `while compare_signature(..)?` loop of reader.rs
`CentralDirectoryReader::read`: collect central-directory file headers,
assigning each its `position` before pushing. The fuel parameter stands
for the unbounded Rust loop; fuel exhaustion is an (unreachable at the
fuel the callers pass) error. -/
def cd_headers_loop (input : List Nat) :
    Nat → List CentralDirectoryFileHeader → Nat →
    Except RError (List CentralDirectoryFileHeader) × Nat
  | 0, _, pos => (.error (.err "fuel exhausted"), pos)
  | fuel + 1, acc, pos =>
    let (r, p1) := compare_signature input pos SIGNATURE_HEADER_CENTRAL_DIRECTORY
    match r with
    | .error e => (.error e, p1)
    | .ok false => (.ok acc, p1)
    | .ok true =>
      match CentralDirectoryFileHeaderReader.read input p1 with
      | (.error e, p2) => (.error e, p2)
      | (.ok header, p2) =>
        cd_headers_loop input fuel (acc ++ [{ header with position := some acc.length }]) p2

/-- Tail of reader.rs `CentralDirectoryReader::read` after the digital
signature has been handled: probe for the end-of-central-directory
signature (an unreadable probe counts as a miss, per `.or(Ok(false))`),
decode the trailer on a match, and reject the whole central directory
when it is absent. -/
def cd_finish (input : List Nat) (offset_from_start_of_archive : Nat)
    (file_headers : List CentralDirectoryFileHeader)
    (digital_signature : Option DigitalSignature) (pos : Nat) :
    Except RError CentralDirectory × Nat :=
  let (r, p1) := compare_signature input pos SIGNATURE_END_OF_CENTRAL_DIRECTORY_RECORD
  let eocd_match : Bool := match r with | .ok b => b | .error _ => false
  if eocd_match then
    match EndOfCentralDirectoryRecordReader.read input p1 with
    | (.error e, p2) => (.error e, p2)
    | (.ok record, p2) =>
      (.ok { file_headers, digital_signature,
             end_of_central_directory_record := record,
             offset_from_start_of_archive }, p2)
  else
    (.error (.err "Unable to read central directory: end of central directory not found"), p1)

/-- reader.rs `CentralDirectoryReader::read`: record the entry position as
`offset_from_start_of_archive`, collect the file headers, optionally
decode a digital signature (a failed probe counts as a miss), then
require the end-of-central-directory record. -/
def CentralDirectoryReader.read (input : List Nat) (pos : Nat) :
    Except RError CentralDirectory × Nat :=
  match cd_headers_loop input (input.length + 1) [] pos with
  | (.error e, p1) => (.error e, p1)
  | (.ok file_headers, p1) =>
    let (r, p2) := compare_signature input p1 SIGNATURE_CENTRAL_DIRECTORY_DIGITAL_SIGNATURE
    let ds_match : Bool := match r with | .ok b => b | .error _ => false
    if ds_match then
      match DigitalSignatureReader.read input p2 with
      | (.error e, p3) => (.error e, p3)
      | (.ok ds, p3) => cd_finish input pos file_headers (some ds) p3
    else
      cd_finish input pos file_headers none p2

/-- The body of one iteration of the first `while` loop of reader.rs
`ZipFileReader::read`, with the continuation of the loop abstracted as
`recur`: probe for a local-file-header signature (a failed probe counts as
a miss, per `.or(Ok(false))`), decode an entry, and on a recoverable
decode error rewind to just after the matched signature and re-probe. -/
def zip_prefix_body (input : List Nat)
    (recur : List StoredFile → Nat → Except RError (List StoredFile) × Nat)
    (acc : List StoredFile) (pos : Nat) : Except RError (List StoredFile) × Nat :=
  let (r, p1) := compare_signature input pos SIGNATURE_HEADER_LOCAL_FILE
  match r with
  | .ok true =>
    match StoredFileReader.read input p1 acc.length with
    | (.ok stored_file, p2) => recur (acc ++ [stored_file]) p2
    | (.error (.fatal m), p2) => (.error (.fatal m), p2)
    | (.error (.err _), _) => recur acc p1
  | _ => (.ok acc, p1)

/-- The first `while` loop of reader.rs `ZipFileReader::read`, as a
fuel-indexed iteration of `zip_prefix_body`. -/
def zip_prefix_loop (input : List Nat) :
    Nat → List StoredFile → Nat → Except RError (List StoredFile) × Nat
  | 0, _, pos => (.error (.err "fuel exhausted"), pos)
  | fuel + 1, acc, pos => zip_prefix_body input (zip_prefix_loop input fuel) acc pos

/-- The body of one iteration of the resync `loop` of reader.rs
`ZipFileReader::read`, with the continuation of the loop abstracted as
`recur`: read a 4-byte chunk, try the local-file-header,
archive-extra-data-record and central-directory signatures in turn (raw
comparisons without rewind), and otherwise either stop when no space
remains or shift one net byte forward. A central directory that fails to
decode with an ordinary error is absorbed (the loop breaks with no central
directory); panics propagate. -/
def zip_resync_body (input : List Nat)
    (recur : List StoredFile → Option ArchiveExtraDataRecord → Nat →
      Except RError (List StoredFile × Option ArchiveExtraDataRecord × Option CentralDirectory) × Nat)
    (acc : List StoredFile) (archive_extra_data_record : Option ArchiveExtraDataRecord)
    (pos : Nat) :
    Except RError (List StoredFile × Option ArchiveExtraDataRecord × Option CentralDirectory) × Nat :=
  let (chunk, p1) := read_chunk input pos 4
  let (r1, p2) := compare_signature_raw input p1 chunk SIGNATURE_HEADER_LOCAL_FILE false
  match r1 with
  | .error e => (.error e, p2)
  | .ok true =>
    match StoredFileReader.read input p2 acc.length with
    | (.ok stored_file, p3) => recur (acc ++ [stored_file]) archive_extra_data_record p3
    | (.error (.fatal m), p3) => (.error (.fatal m), p3)
    | (.error (.err _), p3) => recur acc archive_extra_data_record p3
  | .ok false =>
    let (r2, p4) := compare_signature_raw input p2 chunk SIGNATURE_ARCHIVE_EXTRA_DATA_RECORD false
    match r2 with
    | .error e => (.error e, p4)
    | .ok true =>
      match ArchiveExtraDataRecordReader.read input p4 with
      | (.error e, p5) => (.error e, p5)
      | (.ok record, p5) => recur acc (some record) p5
    | .ok false =>
      let (r3, p6) := compare_signature_raw input p4 chunk SIGNATURE_HEADER_CENTRAL_DIRECTORY false
      match r3 with
      | .error e => (.error e, p6)
      | .ok true =>
        let p7 := rewind_file_cursor p6 4
        match CentralDirectoryReader.read input p7 with
        | (.ok cd, p8) =>
          (.ok (acc.map (fun sf => sf.update_from_central_directory cd),
                archive_extra_data_record, some cd), p8)
        | (.error (.fatal m), p8) => (.error (.fatal m), p8)
        | (.error (.err _), p8) => (.ok (acc, archive_extra_data_record, none), p8)
      | .ok false =>
        if file_has_remaining_space input p6 4 = false then
          (.ok (acc, archive_extra_data_record, none), p6)
        else
          recur acc archive_extra_data_record (rewind_file_cursor p6 3)

/-- The resync `loop` of reader.rs `ZipFileReader::read`, as a
fuel-indexed iteration of `zip_resync_body`. -/
def zip_resync_loop (input : List Nat) :
    Nat → List StoredFile → Option ArchiveExtraDataRecord → Nat →
    Except RError (List StoredFile × Option ArchiveExtraDataRecord × Option CentralDirectory) × Nat
  | 0, _, _, pos => (.error (.err "fuel exhausted"), pos)
  | fuel + 1, acc, archive_extra_data_record, pos =>
    zip_resync_body input (zip_resync_loop input fuel) acc archive_extra_data_record pos

/-- reader.rs `ZipFileReader::read`: the prefix entry loop followed by the
resync loop, assembling the `ZipFile` model. -/
def ZipFileReader.read (input : List Nat) : Except RError ZipFile :=
  match zip_prefix_loop input (input.length + 1) [] 0 with
  | (.error e, _) => .error e
  | (.ok stored_files, p1) =>
    match zip_resync_loop input (input.length + 1) stored_files none p1 with
    | (.error e, _) => .error e
    | (.ok (stored_files', archive_extra_data_record, central_directory), _) =>
      .ok { stored_files := stored_files', archive_extra_data_record, central_directory }

/-- A minimal single valid entry and nothing else: local-file-header
signature, a 26-byte header with all lengths zero, no payload. -/
def c1_input : List Nat :=
  [80, 75, 3, 4] ++
  [20, 0, 0, 0, 0, 0, 0, 0, 0, 0] ++
  [0, 0, 0, 0] ++ [0, 0, 0, 0] ++ [0, 0, 0, 0] ++
  [0, 0] ++ [0, 0]

/-- A single entry whose general-purpose flag is 8 (bit 3 set, bit 2
clear); 12 trailing bytes that a data descriptor could occupy. -/
def c2_input : List Nat :=
  [80, 75, 3, 4] ++
  [20, 0, 8, 0, 0, 0, 0, 0, 0, 0] ++
  [0, 0, 0, 0] ++ [0, 0, 0, 0] ++ [0, 0, 0, 0] ++
  [0, 0] ++ [0, 0] ++
  [1, 0, 0, 0, 0, 0, 0, 0, 0, 0, 0, 0]

/-- A single entry whose general-purpose flag is 4 (bit 2 set, bit 3
clear), followed by 12 bytes forming a data descriptor. -/
def c2b_input : List Nat :=
  [80, 75, 3, 4] ++
  [20, 0, 4, 0, 0, 0, 0, 0, 0, 0] ++
  [0, 0, 0, 0] ++ [0, 0, 0, 0] ++ [0, 0, 0, 0] ++
  [0, 0] ++ [0, 0] ++
  [1, 0, 0, 0, 0, 0, 0, 0, 0, 0, 0, 0]

/-- One entry named "a" with a 5-byte payload, one matching
central-directory file header, and an end-of-central-directory record,
using the byte orders that decode to the signature constants of
constants.rs. -/
def arc1_input : List Nat :=
  [80, 75, 3, 4] ++
  [20, 0, 0, 0, 0, 0, 0, 0, 0, 0] ++
  [0, 0, 0, 0] ++ [5, 0, 0, 0] ++ [5, 0, 0, 0] ++
  [1, 0] ++ [0, 0] ++ [97] ++ [104, 101, 108, 108, 111] ++
  [2, 1, 75, 80] ++
  [20, 0, 20, 0, 0, 0, 0, 0, 0, 0, 0, 0] ++
  [0, 0, 0, 0] ++ [5, 0, 0, 0] ++ [5, 0, 0, 0] ++
  [1, 0] ++ [0, 0] ++ [0, 0] ++ [0, 0] ++ [0, 0] ++
  [0, 0, 0, 0] ++ [0, 0, 0, 0] ++ [97] ++
  [6, 5, 75, 80] ++
  [0, 0, 0, 0, 1, 0, 1, 0] ++ [47, 0, 0, 0] ++ [36, 0, 0, 0] ++ [0, 0]

/-- Like `arc1_input` but with the central-directory file header
duplicated: two headers with the same filename "a". -/
def arc2_input : List Nat :=
  [80, 75, 3, 4] ++
  [20, 0, 0, 0, 0, 0, 0, 0, 0, 0] ++
  [0, 0, 0, 0] ++ [5, 0, 0, 0] ++ [5, 0, 0, 0] ++
  [1, 0] ++ [0, 0] ++ [97] ++ [104, 101, 108, 108, 111] ++
  [2, 1, 75, 80] ++
  [20, 0, 20, 0, 0, 0, 0, 0, 0, 0, 0, 0] ++
  [0, 0, 0, 0] ++ [5, 0, 0, 0] ++ [5, 0, 0, 0] ++
  [1, 0] ++ [0, 0] ++ [0, 0] ++ [0, 0] ++ [0, 0] ++
  [0, 0, 0, 0] ++ [0, 0, 0, 0] ++ [97] ++
  [2, 1, 75, 80] ++
  [20, 0, 20, 0, 0, 0, 0, 0, 0, 0, 0, 0] ++
  [0, 0, 0, 0] ++ [5, 0, 0, 0] ++ [5, 0, 0, 0] ++
  [1, 0] ++ [0, 0] ++ [0, 0] ++ [0, 0] ++ [0, 0] ++
  [0, 0, 0, 0] ++ [0, 0, 0, 0] ++ [97] ++
  [6, 5, 75, 80] ++
  [0, 0, 0, 0, 2, 0, 2, 0] ++ [94, 0, 0, 0] ++ [36, 0, 0, 0] ++ [0, 0]

/-- One entry named "a" with an empty payload, one central-directory file
header, and then 4 junk bytes instead of the end-of-central-directory
record. -/
def arc3_input : List Nat :=
  [80, 75, 3, 4] ++
  [20, 0, 0, 0, 0, 0, 0, 0, 0, 0] ++
  [0, 0, 0, 0] ++ [0, 0, 0, 0] ++ [0, 0, 0, 0] ++
  [1, 0] ++ [0, 0] ++ [97] ++
  [2, 1, 75, 80] ++
  [20, 0, 20, 0, 0, 0, 0, 0, 0, 0, 0, 0] ++
  [0, 0, 0, 0] ++ [0, 0, 0, 0] ++ [0, 0, 0, 0] ++
  [1, 0] ++ [0, 0] ++ [0, 0] ++ [0, 0] ++ [0, 0] ++
  [0, 0, 0, 0] ++ [0, 0, 0, 0] ++ [97] ++
  [9, 9, 9, 9]

/-- The parsed model of an input, or the empty model when parsing fails.
Used to state concrete evaluations without destructuring `Except`. -/
def parse_or_empty (input : List Nat) : ZipFile :=
  match ZipFileReader.read input with
  | .ok zf => zf
  | .error _ =>
    { stored_files := [], archive_extra_data_record := none, central_directory := none }

/-- Whether a reader outcome is `ok`. -/
def except_is_ok : Except RError α → Bool
  | .ok _ => true
  | .error _ => false

/-- A placeholder stored file used as a fallback when projecting out of a
concretely parsed model. -/
def dummy_stored_file : StoredFile :=
  { local_file_header :=
      { minimum_version := 0, general_purpose_flag := 0, compression_method := 0,
        file_last_modification_time := 0, file_last_modification_date := 0,
        crc32 := 0, compressed_size := 0, uncompressed_size := 0,
        filename := [], extra_field := [] },
    file_data := [], data_descriptor := none, position := 0,
    found_in_central_directory := false, offset_in_archive := 0,
    offset_from_central_directory := none }

/-- The position after `read_chunk` advances by the number of bytes
actually available, never more than `chunk_size`. -/
theorem read_chunk_snd (input : List Nat) (pos chunk_size : Nat) :
    (read_chunk input pos chunk_size).2 = pos + min chunk_size (input.length - pos) := by
  simp [read_chunk]

/-- `read_chunk` never moves the cursor backwards. -/
theorem read_chunk_le (input : List Nat) (pos chunk_size : Nat) :
    pos ≤ (read_chunk input pos chunk_size).2 := by
  rw [read_chunk_snd]; omega

/-- `read_chunk` never moves the cursor past the end of the input. -/
theorem read_chunk_le_length (input : List Nat) (pos chunk_size : Nat)
    (h : pos ≤ input.length) : (read_chunk input pos chunk_size).2 ≤ input.length := by
  rw [read_chunk_snd]; omega

/-- A successful 32-bit decode happens exactly on a 4-byte chunk, and the
value is the little-endian sum. -/
theorem read_u32_le_ok_shape {c : List Nat} {v : Nat} (h : read_u32_le c = .ok v) :
    ∃ b0 b1 b2 b3, c = [b0, b1, b2, b3] ∧ v = b0 + b1 * 256 + b2 * 65536 + b3 * 16777216 := by
  match c with
  | [b0, b1, b2, b3] =>
    refine ⟨b0, b1, b2, b3, rfl, ?_⟩
    simpa [read_u32_le] using h.symm
  | [] | [_] | [_, _] | [_, _, _] => simp [read_u32_le] at h
  | _ :: _ :: _ :: _ :: _ :: _ => simp [read_u32_le] at h

/-- A successful 32-bit decode of the 4-byte probe chunk means at least 4
bytes were available at the probe position. -/
theorem probe_ok_bound {input : List Nat} {pos v : Nat}
    (h : read_u32_le ((input.drop pos).take 4) = .ok v) : pos + 4 ≤ input.length := by
  obtain ⟨b0, b1, b2, b3, hc, -⟩ := read_u32_le_ok_shape h
  have hlen : ((input.drop pos).take 4).length = 4 := by rw [hc]; rfl
  simp [List.length_take, List.length_drop] at hlen
  omega

/-- The probe chunk has length 4 on a successful decode, so the cursor
after the chunk read is the probe position plus 4. -/
theorem probe_ok_chunk_len {input : List Nat} {pos v : Nat}
    (h : read_u32_le ((input.drop pos).take 4) = .ok v) :
    ((input.drop pos).take 4).length = 4 := by
  obtain ⟨b0, b1, b2, b3, hc, -⟩ := read_u32_le_ok_shape h
  rw [hc]; rfl

/-- One reconciler step only ever touches the two cross-reference
attributes. -/
theorem update_step_preserves (cd : CentralDirectory) (s : StoredFile)
    (h : CentralDirectoryFileHeader) :
    (StoredFile.update_step cd s h).local_file_header = s.local_file_header ∧
    (StoredFile.update_step cd s h).file_data = s.file_data ∧
    (StoredFile.update_step cd s h).offset_in_archive = s.offset_in_archive ∧
    (StoredFile.update_step cd s h).position = s.position ∧
    (StoredFile.update_step cd s h).data_descriptor = s.data_descriptor := by
  unfold StoredFile.update_step
  split <;> simp

/-- The reconciler scan only ever touches the two cross-reference
attributes. -/
theorem update_foldl_preserves (cd : CentralDirectory) :
    ∀ (l : List CentralDirectoryFileHeader) (s : StoredFile),
    (l.foldl (StoredFile.update_step cd) s).local_file_header = s.local_file_header ∧
    (l.foldl (StoredFile.update_step cd) s).file_data = s.file_data ∧
    (l.foldl (StoredFile.update_step cd) s).offset_in_archive = s.offset_in_archive ∧
    (l.foldl (StoredFile.update_step cd) s).position = s.position ∧
    (l.foldl (StoredFile.update_step cd) s).data_descriptor = s.data_descriptor := by
  intro l
  induction l with
  | nil => intro s; simp
  | cons h t ih =>
    intro s
    have hstep := update_step_preserves cd s h
    have ht := ih (StoredFile.update_step cd s h)
    simp only [List.foldl_cons]
    exact ⟨hstep.1 ▸ ht.1, hstep.2.1 ▸ ht.2.1, hstep.2.2.1 ▸ ht.2.2.1,
           hstep.2.2.2.1 ▸ ht.2.2.2.1, hstep.2.2.2.2 ▸ ht.2.2.2.2⟩

/-- After the reconciler scan, the found flag is set exactly when it was
already set or some scanned header's filename matches byte-exactly. -/
theorem update_foldl_found (cd : CentralDirectory) :
    ∀ (l : List CentralDirectoryFileHeader) (s : StoredFile),
    ((l.foldl (StoredFile.update_step cd) s).found_in_central_directory = true ↔
      (s.found_in_central_directory = true ∨
        ∃ fh ∈ l, fh.filename = s.local_file_header.filename)) := by
  intro l
  induction l with
  | nil => intro s; simp
  | cons h t ih =>
    intro s
    simp only [List.foldl_cons]
    rw [ih (StoredFile.update_step cd s h)]
    rw [(update_step_preserves cd s h).1]
    unfold StoredFile.update_step
    split
    · rename_i hmatch
      constructor
      · intro _; exact Or.inr ⟨h, List.mem_cons_self h t, hmatch⟩
      · intro _; exact Or.inl rfl
    · rename_i hmatch
      constructor
      · rintro (hf | ⟨fh, hfh, hname⟩)
        · exact Or.inl hf
        · exact Or.inr ⟨fh, List.mem_cons_of_mem h hfh, hname⟩
      · rintro (hf | ⟨fh, hfh, hname⟩)
        · exact Or.inl hf
        · rcases List.mem_cons.mp hfh with heq | hmem
          · exact absurd (heq ▸ hname) hmatch
          · exact Or.inr ⟨fh, hmem, hname⟩

/-- The reconciler scan leaves the delta attribute unchanged when no
scanned header matches. -/
theorem update_foldl_delta_keep (cd : CentralDirectory) :
    ∀ (l : List CentralDirectoryFileHeader) (s : StoredFile),
    (∀ fh ∈ l, ¬ fh.filename = s.local_file_header.filename) →
    (l.foldl (StoredFile.update_step cd) s).offset_from_central_directory =
      s.offset_from_central_directory := by
  intro l
  induction l with
  | nil => intro s _; simp
  | cons h t ih =>
    intro s hall
    simp only [List.foldl_cons]
    have hmatch : ¬ h.filename = s.local_file_header.filename := hall h (List.mem_cons_self h t)
    have hstep : StoredFile.update_step cd s h = s := by
      unfold StoredFile.update_step; rw [if_neg hmatch]
    rw [hstep]
    exact ih s (fun fh hfh => hall fh (List.mem_cons_of_mem h hfh))

/-- After the reconciler scan, the delta attribute is set to the central
directory's start minus the stored file's own offset whenever some scanned
header matches. -/
theorem update_foldl_delta_pos (cd : CentralDirectory) :
    ∀ (l : List CentralDirectoryFileHeader) (s : StoredFile),
    (∃ fh ∈ l, fh.filename = s.local_file_header.filename) →
    (l.foldl (StoredFile.update_step cd) s).offset_from_central_directory =
      some (cd.offset_from_start_of_archive - s.offset_in_archive) := by
  intro l
  induction l with
  | nil => intro s hex; simp at hex
  | cons h t ih =>
    intro s hex
    simp only [List.foldl_cons]
    by_cases hmatch : h.filename = s.local_file_header.filename
    · by_cases hext : ∃ fh ∈ t, fh.filename = s.local_file_header.filename
      · have hs := update_step_preserves cd s h
        have := ih (StoredFile.update_step cd s h) (by rw [hs.1]; exact hext)
        rw [this, hs.2.2.1]
      · have hall : ∀ fh ∈ t, ¬ fh.filename = (StoredFile.update_step cd s h).local_file_header.filename := by
          rw [(update_step_preserves cd s h).1]
          intro fh hfh hname
          exact hext ⟨fh, hfh, hname⟩
        have hkeep := update_foldl_delta_keep cd t (StoredFile.update_step cd s h) hall
        rw [hkeep]
        unfold StoredFile.update_step
        rw [if_pos hmatch]
    · rcases hex with ⟨fh, hfh, hname⟩
      rcases List.mem_cons.mp hfh with heq | hfh
      · exact absurd (heq ▸ hname) hmatch
      · have hs := update_step_preserves cd s h
        have := ih (StoredFile.update_step cd s h) (by rw [hs.1]; exact ⟨fh, hfh, hname⟩)
        rw [this, hs.2.2.1]

/-- The components of a `read_chunk` result: the advanced position. -/
theorem read_chunk_pair_snd {input : List Nat} {q n : Nat} {c : List Nat} {p : Nat}
    (h : read_chunk input q n = (c, p)) : p = q + min n (input.length - q) := by
  have h2 : (read_chunk input q n).2 = p := by rw [h]
  rw [read_chunk_snd] at h2
  omega

/-- A `read_chunk` step never moves the cursor backwards. -/
theorem read_chunk_pair_mono {input : List Nat} {q n : Nat} {c : List Nat} {p : Nat}
    (h : read_chunk input q n = (c, p)) : q ≤ p := by
  have := read_chunk_pair_snd h
  omega

/-- A `read_chunk` step never moves the cursor past the end of the
input. -/
theorem read_chunk_pair_len {input : List Nat} {q n : Nat} {c : List Nat} {p : Nat}
    (h : read_chunk input q n = (c, p)) (hq : q ≤ input.length) : p ≤ input.length := by
  have := read_chunk_pair_snd h
  omega

/-- The components of a `read_chunk` result: the bytes obtained. -/
theorem read_chunk_pair_fst {input : List Nat} {q n : Nat} {c : List Nat} {p : Nat}
    (h : read_chunk input q n = (c, p)) : c = (input.drop q).take n := by
  have h2 : (read_chunk input q n).1 = c := by rw [h]
  simpa [read_chunk] using h2.symm

/-- The parse stage of the local-file-header decoder carries the cursor
position through unchanged. -/
theorem LocalFileHeaderReader.parse_snd (c1 c2 c3 c4 c5 c6 c7 c8 c9 c10 : List Nat)
    (pos : Nat) : (LocalFileHeaderReader.parse c1 c2 c3 c4 c5 c6 c7 c8 c9 c10 pos).2 = pos := by
  unfold LocalFileHeaderReader.parse
  repeat' split
  all_goals rfl

/-- The local-file-header decoder never moves the cursor backwards, and
never past the end of the input. -/
theorem LocalFileHeaderReader.lfh_read_le_both (input : List Nat) (pos : Nat) :
    pos ≤ (LocalFileHeaderReader.read input pos).2 ∧
    (pos ≤ input.length → (LocalFileHeaderReader.read input pos).2 ≤ input.length) := by
  unfold LocalFileHeaderReader.read
  rcases h1 : read_chunk input pos 2 with ⟨c1, p1⟩
  try dsimp only
  rcases h2 : read_chunk input p1 2 with ⟨c2, p2⟩
  try dsimp only
  rcases h3 : read_chunk input p2 2 with ⟨c3, p3⟩
  try dsimp only
  rcases h4 : read_chunk input p3 2 with ⟨c4, p4⟩
  try dsimp only
  rcases h5 : read_chunk input p4 2 with ⟨c5, p5⟩
  try dsimp only
  rcases h6 : read_chunk input p5 4 with ⟨c6, p6⟩
  try dsimp only
  rcases h7 : read_chunk input p6 4 with ⟨c7, p7⟩
  try dsimp only
  rcases h8 : read_chunk input p7 4 with ⟨c8, p8⟩
  try dsimp only
  rcases h9 : read_chunk input p8 2 with ⟨c9, p9⟩
  try dsimp only
  have m1 := read_chunk_pair_mono h1
  have m2 := read_chunk_pair_mono h2
  have m3 := read_chunk_pair_mono h3
  have m4 := read_chunk_pair_mono h4
  have m5 := read_chunk_pair_mono h5
  have m6 := read_chunk_pair_mono h6
  have m7 := read_chunk_pair_mono h7
  have m8 := read_chunk_pair_mono h8
  have m9 := read_chunk_pair_mono h9
  rcases u16_from_le_bytes c9 with - | fl
  · show pos ≤ p9 ∧ (pos ≤ input.length → p9 ≤ input.length)
    refine ⟨by omega, fun hlen => ?_⟩
    have b1 := read_chunk_pair_len h1 hlen
    have b2 := read_chunk_pair_len h2 b1
    have b3 := read_chunk_pair_len h3 b2
    have b4 := read_chunk_pair_len h4 b3
    have b5 := read_chunk_pair_len h5 b4
    have b6 := read_chunk_pair_len h6 b5
    have b7 := read_chunk_pair_len h7 b6
    have b8 := read_chunk_pair_len h8 b7
    exact read_chunk_pair_len h9 b8
  · try dsimp only
    rcases h10 : read_chunk input p9 2 with ⟨c10, p10⟩
    try dsimp only
    have m10 := read_chunk_pair_mono h10
    rcases u16_from_le_bytes c10 with - | el
    · show pos ≤ p10 ∧ (pos ≤ input.length → p10 ≤ input.length)
      refine ⟨by omega, fun hlen => ?_⟩
      have b1 := read_chunk_pair_len h1 hlen
      have b2 := read_chunk_pair_len h2 b1
      have b3 := read_chunk_pair_len h3 b2
      have b4 := read_chunk_pair_len h4 b3
      have b5 := read_chunk_pair_len h5 b4
      have b6 := read_chunk_pair_len h6 b5
      have b7 := read_chunk_pair_len h7 b6
      have b8 := read_chunk_pair_len h8 b7
      have b9 := read_chunk_pair_len h9 b8
      exact read_chunk_pair_len h10 b9
    · try dsimp only
      rcases h11 : read_chunk input p10 fl with ⟨c11, p11⟩
      try dsimp only
      rcases h12 : read_chunk input p11 el with ⟨c12, p12⟩
      try dsimp only
      have m11 := read_chunk_pair_mono h11
      have m12 := read_chunk_pair_mono h12
      rw [LocalFileHeaderReader.parse_snd]
      refine ⟨by omega, fun hlen => ?_⟩
      have b1 := read_chunk_pair_len h1 hlen
      have b2 := read_chunk_pair_len h2 b1
      have b3 := read_chunk_pair_len h3 b2
      have b4 := read_chunk_pair_len h4 b3
      have b5 := read_chunk_pair_len h5 b4
      have b6 := read_chunk_pair_len h6 b5
      have b7 := read_chunk_pair_len h7 b6
      have b8 := read_chunk_pair_len h8 b7
      have b9 := read_chunk_pair_len h9 b8
      have b10 := read_chunk_pair_len h10 b9
      have b11 := read_chunk_pair_len h11 b10
      exact read_chunk_pair_len h12 b11

/-- The local-file-header decoder never moves the cursor backwards. -/
theorem LocalFileHeaderReader.lfh_read_le (input : List Nat) (pos : Nat) :
    pos ≤ (LocalFileHeaderReader.read input pos).2 :=
  (LocalFileHeaderReader.lfh_read_le_both input pos).1

/-- The local-file-header decoder never moves the cursor past the end of
the input. -/
theorem LocalFileHeaderReader.lfh_read_le_length (input : List Nat) (pos : Nat)
    (h : pos ≤ input.length) : (LocalFileHeaderReader.read input pos).2 ≤ input.length :=
  (LocalFileHeaderReader.lfh_read_le_both input pos).2 h

/-- The data-descriptor decoder never moves the cursor backwards, and
never past the end of the input. -/
theorem DataDescriptorReader.ddr_read_le_both (input : List Nat) (pos : Nat) :
    pos ≤ (DataDescriptorReader.read input pos).2 ∧
    (pos ≤ input.length → (DataDescriptorReader.read input pos).2 ≤ input.length) := by
  unfold DataDescriptorReader.read
  rcases h1 : read_chunk input pos 4 with ⟨c1, p1⟩
  try dsimp only
  rcases h2 : read_chunk input p1 4 with ⟨c2, p2⟩
  try dsimp only
  rcases h3 : read_chunk input p2 4 with ⟨c3, p3⟩
  try dsimp only
  have m1 := read_chunk_pair_mono h1
  have m2 := read_chunk_pair_mono h2
  have m3 := read_chunk_pair_mono h3
  have goal3 : pos ≤ p3 ∧ (pos ≤ input.length → p3 ≤ input.length) := by
    refine ⟨by omega, fun hlen => ?_⟩
    have b1 := read_chunk_pair_len h1 hlen
    have b2 := read_chunk_pair_len h2 b1
    exact read_chunk_pair_len h3 b2
  rcases read_u32_le c1 with - | v1
  · show pos ≤ p3 ∧ (pos ≤ input.length → p3 ≤ input.length)
    exact goal3
  · try dsimp only
    rcases read_u32_le c2 with - | v2
    · show pos ≤ p3 ∧ (pos ≤ input.length → p3 ≤ input.length)
      exact goal3
    · try dsimp only
      rcases read_u32_le c3 with - | v3
      · show pos ≤ p3 ∧ (pos ≤ input.length → p3 ≤ input.length)
        exact goal3
      · show pos ≤ p3 ∧ (pos ≤ input.length → p3 ≤ input.length)
        exact goal3

/-- The data-descriptor decoder never moves the cursor backwards. -/
theorem DataDescriptorReader.ddr_read_le (input : List Nat) (pos : Nat) :
    pos ≤ (DataDescriptorReader.read input pos).2 :=
  (DataDescriptorReader.ddr_read_le_both input pos).1

/-- The data-descriptor decoder never moves the cursor past the end of the
input. -/
theorem DataDescriptorReader.ddr_read_le_length (input : List Nat) (pos : Nat)
    (h : pos ≤ input.length) : (DataDescriptorReader.read input pos).2 ≤ input.length :=
  (DataDescriptorReader.ddr_read_le_both input pos).2 h

/-- The stored-file decoder never moves the cursor backwards, and never
past the end of the input. -/
theorem StoredFileReader.sfr_read_le_both (input : List Nat) (pos k : Nat) :
    pos ≤ (StoredFileReader.read input pos k).2 ∧
    (pos ≤ input.length → (StoredFileReader.read input pos k).2 ≤ input.length) := by
  have h1 := LocalFileHeaderReader.lfh_read_le_both input pos
  unfold StoredFileReader.read
  rcases hlfh : LocalFileHeaderReader.read input pos with ⟨r1, p1⟩
  rw [hlfh] at h1
  try dsimp only at h1
  cases r1 with
  | error e =>
    show pos ≤ p1 ∧ (pos ≤ input.length → p1 ≤ input.length)
    exact h1
  | ok lfh =>
    try dsimp only
    replace h1 : pos ≤ p1 ∧ (pos ≤ input.length → p1 ≤ input.length) := h1
    rcases hrc : read_chunk input p1 lfh.compressed_size with ⟨fd, p2⟩
    try dsimp only
    have m2 := read_chunk_pair_mono hrc
    split
    · have h3 := DataDescriptorReader.ddr_read_le_both input p2
      rcases hdd : DataDescriptorReader.read input p2 with ⟨r3, p3⟩
      rw [hdd] at h3
      replace h3 : p2 ≤ p3 ∧ (p2 ≤ input.length → p3 ≤ input.length) := h3
      cases r3 with
      | error e =>
        show pos ≤ p3 ∧ (pos ≤ input.length → p3 ≤ input.length)
        refine ⟨by omega, fun hlen => ?_⟩
        exact h3.2 (read_chunk_pair_len hrc (h1.2 hlen))
      | ok dd =>
        show pos ≤ p3 ∧ (pos ≤ input.length → p3 ≤ input.length)
        refine ⟨by omega, fun hlen => ?_⟩
        exact h3.2 (read_chunk_pair_len hrc (h1.2 hlen))
    · show pos ≤ p2 ∧ (pos ≤ input.length → p2 ≤ input.length)
      refine ⟨by omega, fun hlen => ?_⟩
      exact read_chunk_pair_len hrc (h1.2 hlen)

/-- The stored-file decoder never moves the cursor backwards. -/
theorem StoredFileReader.sfr_read_le (input : List Nat) (pos k : Nat) :
    pos ≤ (StoredFileReader.read input pos k).2 :=
  (StoredFileReader.sfr_read_le_both input pos k).1

/-- The stored-file decoder never moves the cursor past the end of the
input. -/
theorem StoredFileReader.sfr_read_le_length (input : List Nat) (pos k : Nat)
    (h : pos ≤ input.length) : (StoredFileReader.read input pos k).2 ≤ input.length :=
  (StoredFileReader.sfr_read_le_both input pos k).2 h

/-- The archive-extra-data-record decoder never moves the cursor
backwards, and never past the end of the input. -/
theorem ArchiveExtraDataRecordReader.aedr_read_le_both (input : List Nat) (pos : Nat) :
    pos ≤ (ArchiveExtraDataRecordReader.read input pos).2 ∧
    (pos ≤ input.length → (ArchiveExtraDataRecordReader.read input pos).2 ≤ input.length) := by
  unfold ArchiveExtraDataRecordReader.read
  rcases h1 : read_chunk input pos 4 with ⟨c1, p1⟩
  try dsimp only
  have m1 := read_chunk_pair_mono h1
  rcases read_u32_le c1 with - | n
  · show pos ≤ p1 ∧ (pos ≤ input.length → p1 ≤ input.length)
    exact ⟨m1, fun hlen => read_chunk_pair_len h1 hlen⟩
  · try dsimp only
    rcases h2 : read_chunk input p1 n with ⟨c2, p2⟩
    try dsimp only
    have m2 := read_chunk_pair_mono h2
    show pos ≤ p2 ∧ (pos ≤ input.length → p2 ≤ input.length)
    exact ⟨by omega, fun hlen => read_chunk_pair_len h2 (read_chunk_pair_len h1 hlen)⟩

/-- The archive-extra-data-record decoder never moves the cursor
backwards. -/
theorem ArchiveExtraDataRecordReader.aedr_read_le (input : List Nat) (pos : Nat) :
    pos ≤ (ArchiveExtraDataRecordReader.read input pos).2 :=
  (ArchiveExtraDataRecordReader.aedr_read_le_both input pos).1

/-- The archive-extra-data-record decoder never moves the cursor past the
end of the input. -/
theorem ArchiveExtraDataRecordReader.aedr_read_le_length (input : List Nat) (pos : Nat)
    (h : pos ≤ input.length) : (ArchiveExtraDataRecordReader.read input pos).2 ≤ input.length :=
  (ArchiveExtraDataRecordReader.aedr_read_le_both input pos).2 h

/-- Decoding fewer than 4 bytes as a 32-bit integer fails. -/
theorem read_u32_le_short {c : List Nat} (h : c.length < 4) :
    read_u32_le c = .error .NotEnoughBytes := by
  match c with
  | [] | [_] | [_, _] | [_, _, _] => simp [read_u32_le]
  | _ :: _ :: _ :: _ :: _ => exact absurd h (by simp)

/-- At or past the end of the input the data-descriptor decoder fails on
its first field without moving the cursor. -/
theorem DataDescriptorReader.read_at_end (input : List Nat) (pos : Nat)
    (hpos : input.length ≤ pos) :
    DataDescriptorReader.read input pos =
      (.error (.err "Unable to read DataDescriptor: unreadable crc32"), pos) := by
  have hd : input.drop pos = [] := List.drop_eq_nil_of_le hpos
  unfold DataDescriptorReader.read
  simp [read_chunk, hd, read_u32_le]

/-- What a successful stored-file decode guarantees: the reconciliation
attributes start out cleared, the recorded offset is 4 bytes before the
entry cursor position, the body position is the given index, and the
payload is either full (its length is the header's `compressed_size`) or
the read was short and the cursor ended at the end of the input. -/
theorem StoredFileReader.sfr_read_ok_spec (input : List Nat) (pos k : Nat)
    (sf : StoredFile) (p' : Nat) (hpos : pos ≤ input.length)
    (h : StoredFileReader.read input pos k = (.ok sf, p')) :
    sf.found_in_central_directory = false ∧
    sf.offset_from_central_directory = none ∧
    sf.offset_in_archive = pos - 4 ∧
    sf.position = k ∧
    (sf.file_data.length = sf.local_file_header.compressed_size ∨ p' = input.length) := by
  have hl := LocalFileHeaderReader.lfh_read_le_both input pos
  unfold StoredFileReader.read at h
  rcases hlfh : LocalFileHeaderReader.read input pos with ⟨r1, p1⟩
  rw [hlfh] at h hl
  try dsimp only at h hl
  cases r1 with
  | error e => try dsimp only at h; simp at h
  | ok lfh =>
    try dsimp only at h
    replace hl : pos ≤ p1 ∧ (pos ≤ input.length → p1 ≤ input.length) := hl
    have hp1 : p1 ≤ input.length := hl.2 hpos
    rcases hrc : read_chunk input p1 lfh.compressed_size with ⟨fd, p2⟩
    rw [hrc] at h
    try dsimp only at h
    have e2 := read_chunk_pair_snd hrc
    have hfd := read_chunk_pair_fst hrc
    split at h
    · rcases hdd : DataDescriptorReader.read input p2 with ⟨r3, p3⟩
      rw [hdd] at h
      cases r3 with
      | error e => try dsimp only at h; simp at h
      | ok dd =>
        try dsimp only at h
        simp only [Prod.mk.injEq, Except.ok.injEq] at h
        obtain ⟨hrec, hp⟩ := h
        subst hrec
        refine ⟨rfl, rfl, rfl, rfl, ?_⟩
        by_cases hc : lfh.compressed_size ≤ input.length - p1
        · left
          rw [hfd]
          simp only [List.length_take, List.length_drop]
          omega
        · exfalso
          have hp2 : input.length ≤ p2 := by omega
          rw [DataDescriptorReader.read_at_end input p2 hp2] at hdd
          simp at hdd
    · try dsimp only at h
      simp only [Prod.mk.injEq, Except.ok.injEq] at h
      obtain ⟨hrec, hp⟩ := h
      subst hrec
      refine ⟨rfl, rfl, rfl, rfl, ?_⟩
      by_cases hc : lfh.compressed_size ≤ input.length - p1
      · left
        rw [hfd]
        simp only [List.length_take, List.length_drop]
        omega
      · right
        omega

/-- On success `cd_finish` records the offset it was given as the central
directory's start. -/
theorem cd_finish_off (input : List Nat) (off : Nat)
    (fhs : List CentralDirectoryFileHeader) (ds : Option DigitalSignature)
    (pos : Nat) (cd : CentralDirectory) (q : Nat)
    (h : cd_finish input off fhs ds pos = (.ok cd, q)) :
    cd.offset_from_start_of_archive = off ∧ cd.file_headers = fhs := by
  unfold cd_finish at h
  rcases hcs : compare_signature input pos SIGNATURE_END_OF_CENTRAL_DIRECTORY_RECORD with ⟨r, p1⟩
  rw [hcs] at h
  try dsimp only at h
  split at h
  · rcases heo : EndOfCentralDirectoryRecordReader.read input p1 with ⟨r2, p2⟩
    rw [heo] at h
    cases r2 with
    | error e => try dsimp only at h; simp at h
    | ok record =>
      try dsimp only at h
      simp only [Prod.mk.injEq, Except.ok.injEq] at h
      obtain ⟨hrec, -⟩ := h
      rw [← hrec]
      exact ⟨rfl, rfl⟩
  · try dsimp only at h
    simp only [Prod.mk.injEq] at h
    exact Except.noConfusion h.1

/-- On success the central-directory reader records its entry position as
`offset_from_start_of_archive`. -/
theorem CentralDirectoryReader.read_off (input : List Nat) (pos : Nat)
    (cd : CentralDirectory) (q : Nat)
    (h : CentralDirectoryReader.read input pos = (.ok cd, q)) :
    cd.offset_from_start_of_archive = pos := by
  unfold CentralDirectoryReader.read at h
  rcases hh : cd_headers_loop input (input.length + 1) [] pos with ⟨r1, p1⟩
  rw [hh] at h
  cases r1 with
  | error e => try dsimp only at h; simp at h
  | ok fhs =>
    try dsimp only at h
    rcases hcs : compare_signature input p1 SIGNATURE_CENTRAL_DIRECTORY_DIGITAL_SIGNATURE with ⟨r2, p2⟩
    rw [hcs] at h
    try dsimp only at h
    split at h
    · rcases hds : DigitalSignatureReader.read input p2 with ⟨r3, p3⟩
      rw [hds] at h
      cases r3 with
      | error e => try dsimp only at h; simp at h
      | ok ds =>
        try dsimp only at h
        exact (cd_finish_off input pos fhs (some ds) p3 cd q h).1
    · exact (cd_finish_off input pos fhs none p2 cd q h).1

/-- Unfolding one fueled iteration of the resync loop. -/
theorem zip_resync_loop_succ (input : List Nat) (fuel : Nat) (acc : List StoredFile)
    (aedr : Option ArchiveExtraDataRecord) (pos : Nat) :
    zip_resync_loop input (fuel + 1) acc aedr pos =
      zip_resync_body input (zip_resync_loop input fuel) acc aedr pos := rfl

/-- The exhausted-fuel case of the resync loop. -/
theorem zip_resync_loop_zero (input : List Nat) (acc : List StoredFile)
    (aedr : Option ArchiveExtraDataRecord) (pos : Nat) :
    zip_resync_loop input 0 acc aedr pos = (.error (.err "fuel exhausted"), pos) := rfl

/-- Unfolding one fueled iteration of the prefix entry loop. -/
theorem zip_prefix_loop_succ (input : List Nat) (fuel : Nat) (acc : List StoredFile)
    (pos : Nat) :
    zip_prefix_loop input (fuel + 1) acc pos =
      zip_prefix_body input (zip_prefix_loop input fuel) acc pos := rfl

/-- The exhausted-fuel case of the prefix entry loop. -/
theorem zip_prefix_loop_zero (input : List Nat) (acc : List StoredFile) (pos : Nat) :
    zip_prefix_loop input 0 acc pos = (.error (.err "fuel exhausted"), pos) := rfl

/-- One resync step after a readable 4-byte probe: the three known
signatures are tried in order; otherwise the step stops when no space
remains and shifts a net single byte forward when it does. -/
theorem zip_resync_body_ok (input : List Nat)
    (recur : List StoredFile → Option ArchiveExtraDataRecord → Nat →
      Except RError (List StoredFile × Option ArchiveExtraDataRecord × Option CentralDirectory) × Nat)
    (acc : List StoredFile) (aedr : Option ArchiveExtraDataRecord) (pos v : Nat)
    (h : read_u32_le ((input.drop pos).take 4) = .ok v) :
    zip_resync_body input recur acc aedr pos =
      if v = SIGNATURE_HEADER_LOCAL_FILE then
        match StoredFileReader.read input (pos + 4) acc.length with
        | (.ok sf, p3) => recur (acc ++ [sf]) aedr p3
        | (.error (.fatal m), p3) => (.error (.fatal m), p3)
        | (.error (.err m), p3) => recur acc aedr p3
      else if v = SIGNATURE_ARCHIVE_EXTRA_DATA_RECORD then
        match ArchiveExtraDataRecordReader.read input (pos + 4) with
        | (.error e, p5) => (.error e, p5)
        | (.ok record, p5) => recur acc (some record) p5
      else if v = SIGNATURE_HEADER_CENTRAL_DIRECTORY then
        match CentralDirectoryReader.read input pos with
        | (.ok cd, p8) =>
          (.ok (acc.map (fun sf => sf.update_from_central_directory cd), aedr, some cd), p8)
        | (.error (.fatal m), p8) => (.error (.fatal m), p8)
        | (.error (.err m), p8) => (.ok (acc, aedr, none), p8)
      else if file_has_remaining_space input (pos + 4) 4 = false then
        (.ok (acc, aedr, none), pos + 4)
      else
        recur acc aedr (pos + 1) := by
  have hlen : ((input.drop pos).take 4).length = 4 := probe_ok_chunk_len h
  unfold zip_resync_body
  simp only [read_chunk]
  rw [hlen]
  simp only [compare_signature_raw, h]
  by_cases hv1 : v = SIGNATURE_HEADER_LOCAL_FILE
  · rw [if_pos hv1, if_pos hv1]
  · rw [if_neg hv1, if_neg hv1]
    simp only [Bool.false_eq_true, if_false]
    by_cases hv2 : v = SIGNATURE_ARCHIVE_EXTRA_DATA_RECORD
    · rw [if_pos hv2, if_pos hv2]
    · rw [if_neg hv2, if_neg hv2]
      by_cases hv3 : v = SIGNATURE_HEADER_CENTRAL_DIRECTORY
      · rw [if_pos hv3, if_pos hv3]
        simp only [rewind_file_cursor, Nat.add_sub_cancel]
      · rw [if_neg hv3, if_neg hv3]
        have harith : pos + 4 - 3 = pos + 1 := by omega
        simp only [rewind_file_cursor, harith]

/-- One resync step on an unreadable probe chunk: the error propagates out
of the walker. -/
theorem zip_resync_body_err (input : List Nat)
    (recur : List StoredFile → Option ArchiveExtraDataRecord → Nat →
      Except RError (List StoredFile × Option ArchiveExtraDataRecord × Option CentralDirectory) × Nat)
    (acc : List StoredFile) (aedr : Option ArchiveExtraDataRecord) (pos : Nat)
    (e : ReadNumberFromBytesError)
    (h : read_u32_le ((input.drop pos).take 4) = .error e) :
    zip_resync_body input recur acc aedr pos =
      (.error (.err "Unable to compare signature"),
        pos + ((input.drop pos).take 4).length) := by
  unfold zip_resync_body
  simp only [read_chunk]
  simp only [compare_signature_raw, h]

/-- One prefix-loop step after a readable 4-byte probe: on a signature
match decode a stored file (re-probing just after the signature if the
decode fails with an ordinary error); on a mismatch exit with the cursor
rewound to the probe position. -/
theorem zip_prefix_body_ok (input : List Nat)
    (recur : List StoredFile → Nat → Except RError (List StoredFile) × Nat)
    (acc : List StoredFile) (pos v : Nat)
    (h : read_u32_le ((input.drop pos).take 4) = .ok v) :
    zip_prefix_body input recur acc pos =
      if v = SIGNATURE_HEADER_LOCAL_FILE then
        match StoredFileReader.read input (pos + 4) acc.length with
        | (.ok sf, p2) => recur (acc ++ [sf]) p2
        | (.error (.fatal m), p2) => (.error (.fatal m), p2)
        | (.error (.err m), p2) => recur acc (pos + 4)
      else (.ok acc, pos) := by
  have hlen : ((input.drop pos).take 4).length = 4 := probe_ok_chunk_len h
  unfold zip_prefix_body
  simp only [compare_signature, read_chunk]
  rw [hlen]
  simp only [compare_signature_raw, h]
  by_cases hv1 : v = SIGNATURE_HEADER_LOCAL_FILE
  · rw [if_pos hv1, if_pos hv1]
  · rw [if_neg hv1, if_neg hv1]
    simp [rewind_file_cursor, Nat.add_sub_cancel]

/-- One prefix-loop step on an unreadable probe chunk: the error is
converted to `false` by `.or(Ok(false))` and the loop exits with the
cursor after the short chunk. -/
theorem zip_prefix_body_err (input : List Nat)
    (recur : List StoredFile → Nat → Except RError (List StoredFile) × Nat)
    (acc : List StoredFile) (pos : Nat) (e : ReadNumberFromBytesError)
    (h : read_u32_le ((input.drop pos).take 4) = .error e) :
    zip_prefix_body input recur acc pos =
      (.ok acc, pos + ((input.drop pos).take 4).length) := by
  unfold zip_prefix_body
  simp only [compare_signature, read_chunk]
  simp only [compare_signature_raw, h]

/-- The prefix entry loop at the end of the input exits immediately: the
probe chunk is empty, so the probe errors and is treated as a miss. -/
theorem zip_prefix_loop_at_end (input : List Nat) (fuel : Nat) (acc : List StoredFile) :
    zip_prefix_loop input (fuel + 1) acc input.length = (.ok acc, input.length) := by
  have hd : input.drop input.length = [] := by simp
  have h : read_u32_le ((input.drop input.length).take 4) = .error .NotEnoughBytes := by
    rw [hd]; simp [read_u32_le]
  rw [zip_prefix_loop_succ,
    zip_prefix_body_err input (zip_prefix_loop input fuel) acc input.length .NotEnoughBytes h,
    hd]
  simp

/-- Whenever fewer than 4 bytes remain at the probe position, the resync
loop cannot return successfully: the probe chunk is short, the signature
comparison errors and the error propagates. -/
theorem zip_resync_loop_short (input : List Nat) (fuel : Nat) (acc : List StoredFile)
    (aedr : Option ArchiveExtraDataRecord) (pos : Nat) (h : input.length < pos + 4) :
    ∀ out q, zip_resync_loop input fuel acc aedr pos ≠ (.ok out, q) := by
  intro out q
  cases fuel with
  | zero => rw [zip_resync_loop_zero]; simp
  | succ fuel =>
    have hlen : ((input.drop pos).take 4).length < 4 := by
      simp only [List.length_take, List.length_drop]
      omega
    rw [zip_resync_loop_succ,
      zip_resync_body_err input (zip_resync_loop input fuel) acc aedr pos .NotEnoughBytes
        (read_u32_le_short hlen)]
    simp

/-- Facts that hold of every stored file accumulated by the walker before
reconciliation, relative to the current cursor position: the
cross-reference attributes are still cleared, the recorded entry offset
lies at least 4 bytes behind the cursor, and the 4 input bytes at the
recorded offset decode to the local-file-header signature. -/
def SfBase (input : List Nat) (pos : Nat) (sf : StoredFile) : Prop :=
  sf.found_in_central_directory = false ∧
  sf.offset_from_central_directory = none ∧
  sf.offset_in_archive + 4 ≤ pos ∧
  read_u32_le ((input.drop sf.offset_in_archive).take 4) = .ok SIGNATURE_HEADER_LOCAL_FILE

/-- A stored file whose payload is full: its length equals the
local-file-header's `compressed_size`. -/
def SfFull (sf : StoredFile) : Prop :=
  sf.file_data.length = sf.local_file_header.compressed_size

/-- `SfBase` is monotone in the cursor position. -/
theorem SfBase_mono {input : List Nat} {pos q : Nat} {sf : StoredFile}
    (h : SfBase input pos sf) (hpq : pos ≤ q) : SfBase input q sf :=
  ⟨h.1, h.2.1, le_trans h.2.2.1 hpq, h.2.2.2⟩

/-- What the walker guarantees about its final stored-file list and
central directory: every payload is full, every recorded offset points at
a local-file-header signature, and the reconciliation attributes agree
with the central directory (cleared when there is none; set by byte-exact
filename matching against a central directory that starts after every
entry when there is one). -/
def ZipOut (input : List Nat) (sfs : List StoredFile) (copt : Option CentralDirectory) : Prop :=
  (∀ sf ∈ sfs, SfFull sf) ∧
  (∀ sf ∈ sfs, read_u32_le ((input.drop sf.offset_in_archive).take 4) =
    .ok SIGNATURE_HEADER_LOCAL_FILE) ∧
  (copt = none → ∀ sf ∈ sfs, sf.found_in_central_directory = false ∧
    sf.offset_from_central_directory = none) ∧
  (∀ cd, copt = some cd → ∀ sf ∈ sfs,
    (sf.found_in_central_directory = true ↔
      ∃ fh ∈ cd.file_headers, fh.filename = sf.local_file_header.filename) ∧
    ((∃ fh ∈ cd.file_headers, fh.filename = sf.local_file_header.filename) →
      sf.offset_from_central_directory =
        some (cd.offset_from_start_of_archive - sf.offset_in_archive)) ∧
    ((¬ ∃ fh ∈ cd.file_headers, fh.filename = sf.local_file_header.filename) →
      sf.offset_from_central_directory = none) ∧
    sf.offset_in_archive + 4 ≤ cd.offset_from_start_of_archive)

/-- The reconciler turns a `SfBase`-and-full accumulator entry into a
stored file satisfying the reconciled part of `ZipOut`. -/
theorem update_spec (input : List Nat) (pos : Nat) (cd : CentralDirectory)
    (sf0 : StoredFile) (hbase : SfBase input pos sf0) (hfull : SfFull sf0)
    (hcdoff : cd.offset_from_start_of_archive = pos) :
    SfFull (sf0.update_from_central_directory cd) ∧
    read_u32_le ((input.drop (sf0.update_from_central_directory cd).offset_in_archive).take 4) =
      .ok SIGNATURE_HEADER_LOCAL_FILE ∧
    ((sf0.update_from_central_directory cd).found_in_central_directory = true ↔
      ∃ fh ∈ cd.file_headers,
        fh.filename = (sf0.update_from_central_directory cd).local_file_header.filename) ∧
    ((∃ fh ∈ cd.file_headers,
        fh.filename = (sf0.update_from_central_directory cd).local_file_header.filename) →
      (sf0.update_from_central_directory cd).offset_from_central_directory =
        some (cd.offset_from_start_of_archive -
          (sf0.update_from_central_directory cd).offset_in_archive)) ∧
    ((¬ ∃ fh ∈ cd.file_headers,
        fh.filename = (sf0.update_from_central_directory cd).local_file_header.filename) →
      (sf0.update_from_central_directory cd).offset_from_central_directory = none) ∧
    (sf0.update_from_central_directory cd).offset_in_archive + 4 ≤
      cd.offset_from_start_of_archive := by
  have hpres := update_foldl_preserves cd cd.file_headers sf0
  have hfound := update_foldl_found cd cd.file_headers sf0
  have hu : sf0.update_from_central_directory cd = cd.file_headers.foldl
      (StoredFile.update_step cd) sf0 := rfl
  rw [hu]
  constructor
  · unfold SfFull
    rw [hpres.1, hpres.2.1]
    exact hfull
  constructor
  · rw [hpres.2.2.1]
    exact hbase.2.2.2
  constructor
  · rw [hpres.1]
    rw [hfound, hbase.1]
    simp
  constructor
  · rw [hpres.1, hpres.2.2.1]
    intro hex
    exact update_foldl_delta_pos cd cd.file_headers sf0 hex
  constructor
  · rw [hpres.1]
    intro hnex
    rw [update_foldl_delta_keep cd cd.file_headers sf0 (fun fh hfh hname => hnex ⟨fh, hfh, hname⟩)]
    exact hbase.2.1
  · rw [hpres.2.2.1, hcdoff]
    exact hbase.2.2.1

set_option maxHeartbeats 1000000 in
/-- Master invariant of the resync loop: starting from an accumulator of
clean, full entries whose offsets all lie behind the cursor, a successful
run produces a list and optional central directory satisfying `ZipOut`. -/
theorem zip_resync_loop_inv (input : List Nat) :
    ∀ (fuel : Nat) (acc : List StoredFile) (aedr : Option ArchiveExtraDataRecord) (pos : Nat)
      (sfs : List StoredFile) (a : Option ArchiveExtraDataRecord)
      (copt : Option CentralDirectory) (p' : Nat),
    pos ≤ input.length →
    (∀ sf ∈ acc, SfBase input pos sf) →
    (∀ sf ∈ acc, SfFull sf) →
    zip_resync_loop input fuel acc aedr pos = (.ok (sfs, a, copt), p') →
    ZipOut input sfs copt := by
  intro fuel
  induction fuel with
  | zero =>
    intro acc aedr pos sfs a copt p' hpos hbase hfull hrun
    rw [zip_resync_loop_zero] at hrun
    simp at hrun
  | succ fuel ih =>
    intro acc aedr pos sfs a copt p' hpos hbase hfull hrun
    rw [zip_resync_loop_succ] at hrun
    rcases hu : read_u32_le ((input.drop pos).take 4) with e | v
    · rw [zip_resync_body_err input (zip_resync_loop input fuel) acc aedr pos e hu] at hrun
      simp at hrun
    · rw [zip_resync_body_ok input (zip_resync_loop input fuel) acc aedr pos v hu] at hrun
      have hpos4 : pos + 4 ≤ input.length := probe_ok_bound hu
      by_cases hv1 : v = SIGNATURE_HEADER_LOCAL_FILE
      · rw [if_pos hv1] at hrun
        rcases hsf : StoredFileReader.read input (pos + 4) acc.length with ⟨rs, p3⟩
        rw [hsf] at hrun
        have hmono := StoredFileReader.sfr_read_le input (pos + 4) acc.length
        have hbnd := StoredFileReader.sfr_read_le_length input (pos + 4) acc.length hpos4
        rw [hsf] at hmono hbnd
        dsimp only at hmono hbnd
        cases rs with
        | ok sf =>
          dsimp only at hrun
          obtain ⟨hf0, ho0, hoff, -, hdata⟩ :=
            StoredFileReader.sfr_read_ok_spec input (pos + 4) acc.length sf p3 hpos4 hsf
          have hoff' : sf.offset_in_archive = pos := by omega
          rcases hdata with hfulld | heof
          · refine ih (acc ++ [sf]) aedr p3 sfs a copt p' hbnd ?_ ?_ hrun
            · intro sf' hsf'
              rcases List.mem_append.mp hsf' with hold | hnew
              · exact SfBase_mono (hbase sf' hold) (by omega)
              · rw [List.mem_singleton.mp hnew]
                exact ⟨hf0, ho0, by omega, by rw [hoff']; rw [← hv1]; exact hu⟩
            · intro sf' hsf'
              rcases List.mem_append.mp hsf' with hold | hnew
              · exact hfull sf' hold
              · rw [List.mem_singleton.mp hnew]; exact hfulld
          · exact absurd hrun
              (zip_resync_loop_short input fuel (acc ++ [sf]) aedr p3 (by omega) _ _)
        | error re =>
          cases re with
          | fatal m => dsimp only at hrun; simp at hrun
          | err m =>
            dsimp only at hrun
            refine ih acc aedr p3 sfs a copt p' hbnd ?_ hfull hrun
            intro sf' hsf'
            exact SfBase_mono (hbase sf' hsf') (by omega)
      · rw [if_neg hv1] at hrun
        by_cases hv2 : v = SIGNATURE_ARCHIVE_EXTRA_DATA_RECORD
        · rw [if_pos hv2] at hrun
          rcases hae : ArchiveExtraDataRecordReader.read input (pos + 4) with ⟨ra, p5⟩
          rw [hae] at hrun
          have hmono := ArchiveExtraDataRecordReader.aedr_read_le input (pos + 4)
          have hbnd := ArchiveExtraDataRecordReader.aedr_read_le_length input (pos + 4) hpos4
          rw [hae] at hmono hbnd
          dsimp only at hmono hbnd
          cases ra with
          | error e => dsimp only at hrun; simp at hrun
          | ok record =>
            dsimp only at hrun
            refine ih acc (some record) p5 sfs a copt p' hbnd ?_ hfull hrun
            intro sf' hsf'
            exact SfBase_mono (hbase sf' hsf') (by omega)
        · rw [if_neg hv2] at hrun
          by_cases hv3 : v = SIGNATURE_HEADER_CENTRAL_DIRECTORY
          · rw [if_pos hv3] at hrun
            rcases hcd : CentralDirectoryReader.read input pos with ⟨rc, p8⟩
            rw [hcd] at hrun
            cases rc with
            | ok cd =>
              dsimp only at hrun
              simp only [Prod.mk.injEq, Except.ok.injEq] at hrun
              obtain ⟨⟨hsfs, -, hcopt⟩, -⟩ := hrun
              have hcdoff := CentralDirectoryReader.read_off input pos cd p8 hcd
              rw [← hsfs, ← hcopt]
              refine ⟨?_, ?_, ?_, ?_⟩
              · intro sf' hsf'
                obtain ⟨sf0, h0, rfl⟩ := List.mem_map.mp hsf'
                exact (update_spec input pos cd sf0 (hbase sf0 h0) (hfull sf0 h0) hcdoff).1
              · intro sf' hsf'
                obtain ⟨sf0, h0, rfl⟩ := List.mem_map.mp hsf'
                exact (update_spec input pos cd sf0 (hbase sf0 h0) (hfull sf0 h0) hcdoff).2.1
              · intro hnone; simp at hnone
              · intro cd' hcd' sf' hsf'
                obtain rfl : cd = cd' := by injection hcd'
                obtain ⟨sf0, h0, rfl⟩ := List.mem_map.mp hsf'
                have := update_spec input pos cd sf0 (hbase sf0 h0) (hfull sf0 h0) hcdoff
                exact ⟨this.2.2.1, this.2.2.2.1, this.2.2.2.2.1, this.2.2.2.2.2⟩
            | error re =>
              cases re with
              | fatal m => dsimp only at hrun; simp at hrun
              | err m =>
                dsimp only at hrun
                simp only [Prod.mk.injEq, Except.ok.injEq] at hrun
                obtain ⟨⟨hsfs, -, hcopt⟩, -⟩ := hrun
                rw [← hsfs, ← hcopt]
                refine ⟨hfull, ?_, ?_, ?_⟩
                · intro sf' hsf'; exact (hbase sf' hsf').2.2.2
                · intro hn sf' hsf'; exact ⟨(hbase sf' hsf').1, (hbase sf' hsf').2.1⟩
                · intro cd' hcd'; simp at hcd'
          · rw [if_neg hv3] at hrun
            by_cases hsp : file_has_remaining_space input (pos + 4) 4 = false
            · rw [if_pos hsp] at hrun
              simp only [Prod.mk.injEq, Except.ok.injEq] at hrun
              obtain ⟨⟨hsfs, -, hcopt⟩, -⟩ := hrun
              rw [← hsfs, ← hcopt]
              refine ⟨hfull, ?_, ?_, ?_⟩
              · intro sf' hsf'; exact (hbase sf' hsf').2.2.2
              · intro hn sf' hsf'; exact ⟨(hbase sf' hsf').1, (hbase sf' hsf').2.1⟩
              · intro cd' hcd'; simp at hcd'
            · rw [if_neg hsp] at hrun
              have hsp' : pos + 8 < input.length := by
                simp only [file_has_remaining_space, decide_eq_false_iff_not, not_not,
                  not_lt, gt_iff_lt] at hsp
                omega
              refine ih acc aedr (pos + 1) sfs a copt p' (by omega) ?_ hfull hrun
              intro sf' hsf'
              exact SfBase_mono (hbase sf' hsf') (by omega)

set_option maxHeartbeats 1000000 in
/-- Master invariant of the prefix entry loop: starting from an
accumulator of clean entries whose offsets lie behind the cursor, a
successful run keeps the cursor in bounds, keeps every entry clean behind
the final cursor, and keeps every payload full unless a short payload read
parked the cursor at the end of the input. -/
theorem zip_prefix_loop_inv (input : List Nat) :
    ∀ (fuel : Nat) (acc : List StoredFile) (pos : Nat) (sfs : List StoredFile) (p' : Nat),
    pos ≤ input.length →
    (∀ sf ∈ acc, SfBase input pos sf) →
    zip_prefix_loop input fuel acc pos = (.ok sfs, p') →
    p' ≤ input.length ∧
    (∀ sf ∈ sfs, SfBase input p' sf) ∧
    ((∀ sf ∈ acc, SfFull sf) → ((∀ sf ∈ sfs, SfFull sf) ∨ p' = input.length)) := by
  intro fuel
  induction fuel with
  | zero =>
    intro acc pos sfs p' hpos hbase hrun
    rw [zip_prefix_loop_zero] at hrun
    simp at hrun
  | succ fuel ih =>
    intro acc pos sfs p' hpos hbase hrun
    rw [zip_prefix_loop_succ] at hrun
    rcases hu : read_u32_le ((input.drop pos).take 4) with e | v
    · rw [zip_prefix_body_err input (zip_prefix_loop input fuel) acc pos e hu] at hrun
      simp only [Prod.mk.injEq, Except.ok.injEq] at hrun
      obtain ⟨hsfs, hp⟩ := hrun
      rw [← hsfs, ← hp]
      have hcl : ((input.drop pos).take 4).length ≤ input.length - pos := by
        simp only [List.length_take, List.length_drop]
        omega
      refine ⟨by omega, ?_, fun hF => Or.inl hF⟩
      intro sf hsf
      exact SfBase_mono (hbase sf hsf) (by omega)
    · rw [zip_prefix_body_ok input (zip_prefix_loop input fuel) acc pos v hu] at hrun
      have hpos4 : pos + 4 ≤ input.length := probe_ok_bound hu
      by_cases hv1 : v = SIGNATURE_HEADER_LOCAL_FILE
      · rw [if_pos hv1] at hrun
        rcases hsf : StoredFileReader.read input (pos + 4) acc.length with ⟨rs, p2⟩
        rw [hsf] at hrun
        have hmono := StoredFileReader.sfr_read_le input (pos + 4) acc.length
        have hbnd := StoredFileReader.sfr_read_le_length input (pos + 4) acc.length hpos4
        rw [hsf] at hmono hbnd
        dsimp only at hmono hbnd
        cases rs with
        | ok sf =>
          dsimp only at hrun
          obtain ⟨hf0, ho0, hoff, -, hdata⟩ :=
            StoredFileReader.sfr_read_ok_spec input (pos + 4) acc.length sf p2 hpos4 hsf
          have hoff' : sf.offset_in_archive = pos := by omega
          have hbasenew : ∀ q, pos + 4 ≤ q → ∀ sf' ∈ acc ++ [sf], SfBase input q sf' := by
            intro q hq sf' hsf'
            rcases List.mem_append.mp hsf' with hold | hnew
            · exact SfBase_mono (hbase sf' hold) (by omega)
            · rw [List.mem_singleton.mp hnew]
              exact ⟨hf0, ho0, by omega, by rw [hoff']; rw [← hv1]; exact hu⟩
          rcases hdata with hfulld | heof
          · obtain ⟨c1, c2, c3⟩ :=
              ih (acc ++ [sf]) p2 sfs p' hbnd (hbasenew p2 hmono) hrun
            refine ⟨c1, c2, fun haccF => c3 ?_⟩
            intro sf' hsf'
            rcases List.mem_append.mp hsf' with hold | hnew
            · exact haccF sf' hold
            · rw [List.mem_singleton.mp hnew]; exact hfulld
          · rw [heof] at hrun
            cases fuel with
            | zero =>
              rw [zip_prefix_loop_zero] at hrun
              simp at hrun
            | succ fuel' =>
              rw [zip_prefix_loop_at_end] at hrun
              simp only [Prod.mk.injEq, Except.ok.injEq] at hrun
              obtain ⟨hsfs, hp⟩ := hrun
              rw [← hsfs, ← hp]
              exact ⟨le_refl _, hbasenew input.length (by omega), fun haccF => Or.inr rfl⟩
        | error re =>
          cases re with
          | fatal m => dsimp only at hrun; simp at hrun
          | err m =>
            dsimp only at hrun
            refine ih acc (pos + 4) sfs p' hpos4 ?_ hrun
            intro sf' hsf'
            exact SfBase_mono (hbase sf' hsf') (by omega)
      · rw [if_neg hv1] at hrun
        simp only [Prod.mk.injEq, Except.ok.injEq] at hrun
        obtain ⟨hsfs, hp⟩ := hrun
        rw [← hsfs, ← hp]
        exact ⟨hpos, hbase, fun hF => Or.inl hF⟩

/-- Everything a successful top-level parse guarantees about the model's
stored files and central directory. -/
theorem ZipFileReader.zip_read_ok_spec (input : List Nat) (zf : ZipFile)
    (h : ZipFileReader.read input = .ok zf) :
    ZipOut input zf.stored_files zf.central_directory := by
  unfold ZipFileReader.read at h
  rcases hpre : zip_prefix_loop input (input.length + 1) [] 0 with ⟨r1, p1⟩
  rw [hpre] at h
  cases r1 with
  | error e => dsimp only at h; exact absurd h (by simp)
  | ok sfs1 =>
    dsimp only at h
    rcases hres : zip_resync_loop input (input.length + 1) sfs1 none p1 with ⟨r2, p2⟩
    rw [hres] at h
    cases r2 with
    | error e => dsimp only at h; exact absurd h (by simp)
    | ok out =>
      rcases out with ⟨sfs, aedr, copt⟩
      dsimp only at h
      simp only [Except.ok.injEq] at h
      obtain ⟨hp1len, hbase1, hfull1⟩ :=
        zip_prefix_loop_inv input (input.length + 1) [] 0 sfs1 p1 (by omega) (by simp) hpre
      rcases hfull1 (by simp) with hF | hEnd
      · have hout :=
          zip_resync_loop_inv input (input.length + 1) sfs1 none p1 sfs aedr copt p2
            hp1len hbase1 hF hres
        rw [← h]
        exact hout
      · exact absurd hres
          (zip_resync_loop_short input (input.length + 1) sfs1 none p1 (by omega) _ _)

deriving instance DecidableEq for Except

/-- A 4-byte chunk of genuine bytes decoding to the local-file-header
signature is exactly its little-endian byte spelling `50 4B 03 04`. -/
theorem sig_bytes_unique {c : List Nat} (hb : ∀ b ∈ c, b < 256)
    (h : read_u32_le c = .ok SIGNATURE_HEADER_LOCAL_FILE) : c = [80, 75, 3, 4] := by
  obtain ⟨b0, b1, b2, b3, rfl, hv⟩ := read_u32_le_ok_shape h
  have h0 : b0 < 256 := hb b0 (by simp)
  have h1 : b1 < 256 := hb b1 (by simp)
  have h2 : b2 < 256 := hb b2 (by simp)
  have h3 : b3 < 256 := hb b3 (by simp)
  unfold SIGNATURE_HEADER_LOCAL_FILE at hv
  have : b0 = 80 ∧ b1 = 75 ∧ b2 = 3 ∧ b3 = 4 := by omega
  simp [this.1, this.2.1, this.2.2.1, this.2.2.2]

/-- The file headers of a model's central directory, the empty list when
no central directory was captured. -/
def ZipFile.cd_file_headers (zf : ZipFile) : List CentralDirectoryFileHeader :=
  match zf.central_directory with
  | some cd => cd.file_headers
  | none => []

/-- A placeholder central directory used as a fallback when projecting out
of a concretely parsed model. -/
def dummy_central_directory : CentralDirectory :=
  { file_headers := [], digital_signature := none,
    end_of_central_directory_record :=
      { disk_number := 0, disk_start_central_directory := 0,
        central_directory_records_number_on_disk := 0,
        central_directory_records_total_number := 0,
        central_directory_size := 0, offset_start_central_directory := 0,
        comment := [] },
    offset_from_start_of_archive := 0 }

/-- The first stored file of the parse of `arc1_input`. -/
def arc1_sf : StoredFile :=
  (parse_or_empty arc1_input).stored_files.headD dummy_stored_file

/-- The central directory of the parse of `arc1_input`. -/
def arc1_cd : CentralDirectory :=
  ((parse_or_empty arc1_input).central_directory).getD dummy_central_directory

/-- The first stored file of the parse of `arc2_input`. -/
def arc2_sf : StoredFile :=
  (parse_or_empty arc2_input).stored_files.headD dummy_stored_file

/-- How many central-directory file headers of the parse of `arc2_input`
carry the first stored file's filename. -/
def arc2_matching_count : Nat :=
  ((parse_or_empty arc2_input).cd_file_headers.filter
    (fun fh => fh.filename == arc2_sf.local_file_header.filename)).length

/-- The stored files recognized by the prefix entry loop on `c1_input`. -/
def c1_prefix_files : Nat :=
  match zip_prefix_loop c1_input (c1_input.length + 1) [] 0 with
  | (.ok l, _) => l.length
  | (.error _, _) => 0

/-- The stored file decoded from `c2_input`. -/
def c2_sf : StoredFile :=
  match StoredFileReader.read c2_input 4 0 with
  | (.ok sf, _) => sf
  | _ => dummy_stored_file

/-- The stored file decoded from `c2b_input`. -/
def c2b_sf : StoredFile :=
  match StoredFileReader.read c2b_input 4 0 with
  | (.ok sf, _) => sf
  | _ => dummy_stored_file

/-- The stored files recognized by the prefix entry loop on
`arc3_input`. -/
def arc3_sfs : List StoredFile :=
  match zip_prefix_loop arc3_input (arc3_input.length + 1) [] 0 with
  | (.ok l, _) => l
  | _ => []

/-- C1: the claim says every input from which at least one stored file
could be recognized yields `Ok`; the code instead returns a top-level
error on an input that is exactly one valid entry and nothing else. The
prefix loop recognizes the single entry, yet `ZipFileReader::read` ends
with `Err("Unable to compare signature")` because the tail-scan loop
probes at end-of-input and the probe error propagates through `?`. -/
theorem C1_single_entry_top_level_error :
    c1_prefix_files = 1 ∧
    ZipFileReader.read c1_input = .error (.err "Unable to compare signature") := by
  constructor
  · decide
  · rfl

/-- C2: the claim (and the source's own comments and the flag
documentation in model.rs) say the data descriptor is read exactly when
bit 3 of the general-purpose flag is set; the code instead tests
`flag & 4`, i.e. bit 2. On an entry whose flag is 8 (bit 3 set, bit 2
clear) no descriptor is read, and on an entry whose flag is 4 (bit 2 set,
bit 3 clear) a descriptor is read and its 12 bytes consumed. -/
theorem C2_descriptor_reads_bit_two :
    except_is_ok (StoredFileReader.read c2_input 4 0).1 = true ∧
    Nat.testBit c2_sf.local_file_header.general_purpose_flag 3 = true ∧
    c2_sf.data_descriptor = none ∧
    except_is_ok (StoredFileReader.read c2b_input 4 0).1 = true ∧
    Nat.testBit c2b_sf.local_file_header.general_purpose_flag 3 = false ∧
    c2b_sf.data_descriptor.isSome = true ∧
    (StoredFileReader.read c2b_input 4 0).2 = 42 := by
  decide

/-- C3 counterexample: the claim says the resync loop exits for
end-of-input only when fewer than 4 bytes remain, and that the
remaining-space query reports whether at least 4 bytes remain. On an
8-byte input with no signatures the loop exits at position 4 with exactly
4 bytes remaining, and the query at that state answers `false` although
at least 4 bytes remain. -/
theorem C3_counterexample :
    zip_resync_loop (List.replicate 8 1) 1 [] none 0 = (.ok ([], none, none), 4) ∧
    (List.replicate 8 1 : List Nat).length - 4 = 4 ∧
    file_has_remaining_space (List.replicate 8 1) 4 4 = false := by
  refine ⟨rfl, by decide, by decide⟩

/-- C3 (amended): each probe that matches no known signature advances the
cursor by a net 1 byte (read 4, rewind 3) when strictly more than 4 bytes
remain past the probe read; the loop exits for end-of-input when at most 4
bytes remain after the 4-byte probe read; and the remaining-space query
reports whether strictly more than `n` bytes remain from the current
position. -/
theorem C3_amended_resync_arithmetic :
    (∀ (input : List Nat) (pos n : Nat),
      file_has_remaining_space input pos n = true ↔ pos + n < input.length) ∧
    (∀ (input : List Nat) (fuel : Nat) (acc : List StoredFile)
       (aedr : Option ArchiveExtraDataRecord) (pos v : Nat),
      read_u32_le ((input.drop pos).take 4) = .ok v →
      v ≠ SIGNATURE_HEADER_LOCAL_FILE →
      v ≠ SIGNATURE_ARCHIVE_EXTRA_DATA_RECORD →
      v ≠ SIGNATURE_HEADER_CENTRAL_DIRECTORY →
      4 < input.length - (pos + 4) →
      zip_resync_loop input (fuel + 1) acc aedr pos =
        zip_resync_loop input fuel acc aedr (pos + 1)) ∧
    (∀ (input : List Nat) (fuel : Nat) (acc : List StoredFile)
       (aedr : Option ArchiveExtraDataRecord) (pos v : Nat),
      read_u32_le ((input.drop pos).take 4) = .ok v →
      v ≠ SIGNATURE_HEADER_LOCAL_FILE →
      v ≠ SIGNATURE_ARCHIVE_EXTRA_DATA_RECORD →
      v ≠ SIGNATURE_HEADER_CENTRAL_DIRECTORY →
      input.length - (pos + 4) ≤ 4 →
      zip_resync_loop input (fuel + 1) acc aedr pos = (.ok (acc, aedr, none), pos + 4)) := by
  refine ⟨?_, ?_, ?_⟩
  · intro input pos n
    simp only [file_has_remaining_space, decide_eq_true_eq, gt_iff_lt]
    omega
  · intro input fuel acc aedr pos v h hv1 hv2 hv3 hsp
    rw [zip_resync_loop_succ,
      zip_resync_body_ok input (zip_resync_loop input fuel) acc aedr pos v h,
      if_neg hv1, if_neg hv2, if_neg hv3]
    have hq : file_has_remaining_space input (pos + 4) 4 = true := by
      simp only [file_has_remaining_space, decide_eq_true_eq, gt_iff_lt]
      omega
    rw [hq]
    simp
  · intro input fuel acc aedr pos v h hv1 hv2 hv3 hsp
    rw [zip_resync_loop_succ,
      zip_resync_body_ok input (zip_resync_loop input fuel) acc aedr pos v h,
      if_neg hv1, if_neg hv2, if_neg hv3]
    have hq : file_has_remaining_space input (pos + 4) 4 = false := by
      simp only [file_has_remaining_space, decide_eq_false_iff_not, gt_iff_lt, not_lt]
      omega
    rw [hq]
    simp

/-- C3 witness: the three parts of the amended statement at concrete
states: the query at position 2 of a 9-byte input, a net one-byte shift on
a 12-byte input of junk, and the end-of-input exit on an 8-byte input of
junk. -/
theorem C3_amended_resync_arithmetic_witness :
    (file_has_remaining_space (List.replicate 9 7) 2 4 = true ↔ 2 + 4 < 9) ∧
    zip_resync_loop (List.replicate 12 1) 4 [] none 0 =
      zip_resync_loop (List.replicate 12 1) 3 [] none 1 ∧
    zip_resync_loop (List.replicate 8 2) 6 [] none 0 = (.ok ([], none, none), 0 + 4) := by
  refine ⟨?_, ?_, ?_⟩
  · have := C3_amended_resync_arithmetic.1 (List.replicate 9 7) 2 4
    simpa using this
  · exact C3_amended_resync_arithmetic.2.1 (List.replicate 12 1) 3 [] none 0 16843009
      rfl (by decide) (by decide) (by decide) (by decide)
  · exact C3_amended_resync_arithmetic.2.2 (List.replicate 8 2) 5 [] none 0 33686018
      rfl (by decide) (by decide) (by decide) (by decide)

/-- C4: over any successful parse every stored file's payload length
equals its local-file-header `compressed_size`, so the total bytes held by
stored-file payloads equal the sum of the `compressed_size` fields. -/
theorem C4_payload_bounded_retention (input : List Nat) (zf : ZipFile)
    (h : ZipFileReader.read input = .ok zf) :
    (∀ sf ∈ zf.stored_files, sf.file_data.length = sf.local_file_header.compressed_size) ∧
    (zf.stored_files.map (fun sf => sf.file_data.length)).sum =
      (zf.stored_files.map (fun sf => sf.local_file_header.compressed_size)).sum := by
  have hfull := (ZipFileReader.zip_read_ok_spec input zf h).1
  exact ⟨hfull, congrArg List.sum (List.map_congr_left (fun sf hsf => hfull sf hsf))⟩

/-- C4 witness: the payload totals agree on a concrete well-formed
archive. -/
theorem C4_payload_bounded_retention_witness :
    ((parse_or_empty arc1_input).stored_files.map (fun sf => sf.file_data.length)).sum =
      ((parse_or_empty arc1_input).stored_files.map
        (fun sf => sf.local_file_header.compressed_size)).sum :=
  (C4_payload_bounded_retention arc1_input (parse_or_empty arc1_input) rfl).2

/-- C5: over any successful parse, a stored file's
`found_in_central_directory` flag is set exactly when the model's central
directory holds a file header with the byte-exact same filename; files
with no match keep the flag cleared. -/
theorem C5_reconciliation_symmetric (input : List Nat) (zf : ZipFile) (sf : StoredFile)
    (h : ZipFileReader.read input = .ok zf) (hsf : sf ∈ zf.stored_files) :
    sf.found_in_central_directory = true ↔
      ∃ fh ∈ zf.cd_file_headers, fh.filename = sf.local_file_header.filename := by
  have hout := ZipFileReader.zip_read_ok_spec input zf h
  unfold ZipFile.cd_file_headers
  cases hcd : zf.central_directory with
  | none =>
    have hfb := (hout.2.2.1 hcd sf hsf).1
    simp [hfb]
  | some cd =>
    exact (hout.2.2.2 cd hcd sf hsf).1

/-- C5 witness: the reconciliation equivalence for the single stored file
of a concrete well-formed archive. -/
theorem C5_reconciliation_symmetric_witness :
    arc1_sf.found_in_central_directory = true ↔
      ∃ fh ∈ (parse_or_empty arc1_input).cd_file_headers,
        fh.filename = arc1_sf.local_file_header.filename :=
  C5_reconciliation_symmetric arc1_input (parse_or_empty arc1_input) arc1_sf rfl (by decide)

set_option maxRecDepth 100000 in
/-- C6 counterexample: the claim says a found stored file has exactly one
matching central-directory header; on an archive whose central directory
lists the same filename twice the parse succeeds, the stored file is
found, and two headers match. -/
theorem C6_counterexample :
    except_is_ok (ZipFileReader.read arc2_input) = true ∧
    arc2_sf.found_in_central_directory = true ∧
    arc2_matching_count = 2 := by
  decide

/-- C6 (amended): over any successful parse, every stored file with
`found_in_central_directory = true` has at least one (not necessarily
exactly one) central-directory file header with the byte-exact same
filename. -/
theorem C6_amended_at_least_one_match (input : List Nat) (zf : ZipFile)
    (cd : CentralDirectory) (sf : StoredFile) (h : ZipFileReader.read input = .ok zf)
    (hcd : zf.central_directory = some cd) (hsf : sf ∈ zf.stored_files)
    (hf : sf.found_in_central_directory = true) :
    ∃ fh ∈ cd.file_headers, fh.filename = sf.local_file_header.filename :=
  ((ZipFileReader.zip_read_ok_spec input zf h).2.2.2 cd hcd sf hsf).1.mp hf

/-- C6 witness: a matching header exists for the found stored file of a
concrete well-formed archive. -/
theorem C6_amended_at_least_one_match_witness :
    ∃ fh ∈ arc1_cd.file_headers, fh.filename = arc1_sf.local_file_header.filename :=
  C6_amended_at_least_one_match arc1_input (parse_or_empty arc1_input) arc1_cd arc1_sf
    rfl (by decide) (by decide) (by decide)

/-- C7: for every stored file the reconciler matches by filename, the
exposed delta is `central_directory.offset_from_start_of_archive −
offset_in_archive`, and it is a well-defined non-negative difference
because every stored file's offset strictly precedes the central
directory's start. -/
theorem C7_reconciler_delta (input : List Nat) (zf : ZipFile) (cd : CentralDirectory)
    (sf : StoredFile) (h : ZipFileReader.read input = .ok zf)
    (hcd : zf.central_directory = some cd) (hsf : sf ∈ zf.stored_files)
    (hf : sf.found_in_central_directory = true) :
    sf.offset_from_central_directory =
      some (cd.offset_from_start_of_archive - sf.offset_in_archive) ∧
    sf.offset_in_archive < cd.offset_from_start_of_archive := by
  have hout := (ZipFileReader.zip_read_ok_spec input zf h).2.2.2 cd hcd sf hsf
  refine ⟨hout.2.1 (hout.1.mp hf), ?_⟩
  have := hout.2.2.2
  omega

/-- C7 witness: the delta of the matched stored file of a concrete
well-formed archive. -/
theorem C7_reconciler_delta_witness :
    arc1_sf.offset_from_central_directory =
      some (arc1_cd.offset_from_start_of_archive - arc1_sf.offset_in_archive) ∧
    arc1_sf.offset_in_archive < arc1_cd.offset_from_start_of_archive :=
  C7_reconciler_delta arc1_input (parse_or_empty arc1_input) arc1_cd arc1_sf
    rfl (by decide) (by decide) (by decide)

/-- C8: over any successful parse of a byte input, the 4 input bytes at
each stored file's `offset_in_archive` are the local-file-header signature
`0x04034b50` in little-endian order, i.e. `50 4B 03 04`. -/
theorem C8_offset_points_at_signature (input : List Nat) (zf : ZipFile) (sf : StoredFile)
    (hbytes : ∀ b ∈ input, b < 256)
    (h : ZipFileReader.read input = .ok zf) (hsf : sf ∈ zf.stored_files) :
    (input.drop sf.offset_in_archive).take 4 = [80, 75, 3, 4] := by
  have hdec := (ZipFileReader.zip_read_ok_spec input zf h).2.1 sf hsf
  apply sig_bytes_unique ?_ hdec
  intro b hb
  exact hbytes b (List.drop_subset _ _ (List.take_subset _ _ hb))

/-- C8 witness: the signature bytes at the recorded offset of the stored
file of a concrete well-formed archive. -/
theorem C8_offset_points_at_signature_witness :
    (arc1_input.drop arc1_sf.offset_in_archive).take 4 = [80, 75, 3, 4] :=
  C8_offset_points_at_signature arc1_input (parse_or_empty arc1_input) arc1_sf
    (by decide) rfl (by decide)

/-- Helper for C10: on bytes (values below 256) the string decoder never
panics and returns one character per byte with the byte's value as code
point, i.e. it is the identity in the code-point representation. -/
theorem read_string_bytes_id (bytes : List Nat) (h : ∀ b ∈ bytes, b < 256) :
    read_string_bytes bytes = some bytes := by
  induction bytes with
  | nil => rfl
  | cons b rest ih =>
    have hb : b < 256 := h b (by simp)
    have hr := ih (fun x hx => h x (by simp [hx]))
    have hc : char_from_u32 b = some b := by
      unfold char_from_u32
      rw [if_neg (by omega)]
    simp [read_string_bytes, hc, hr]

/-- C9: when a central-directory section is entered but its trailer is
absent, the whole central directory is rejected and the walker absorbs
the error. Part 1: an end-of-central-directory probe that does not answer
`ok true` makes the central-directory decoder return the
end-of-central-directory-not-found error. Part 2: a resync step whose
probe matches the central-directory signature, when the central-directory
decoder fails with an ordinary error, exits the loop with the stored
files retained unchanged and no central directory. Part 3: `ok` results
of the two loops, the second carrying no central directory, assemble into
an `ok` model with `central_directory = none` and those stored files. -/
theorem C9_missing_trailer_absorbed :
    (∀ (input : List Nat) (off : Nat) (fhs : List CentralDirectoryFileHeader)
       (ds : Option DigitalSignature) (pos : Nat),
      (compare_signature input pos SIGNATURE_END_OF_CENTRAL_DIRECTORY_RECORD).1 ≠ .ok true →
      (cd_finish input off fhs ds pos).1 =
        .error (.err "Unable to read central directory: end of central directory not found")) ∧
    (∀ (input : List Nat) (fuel : Nat) (acc : List StoredFile)
       (aedr : Option ArchiveExtraDataRecord) (pos : Nat) (m : String) (q : Nat),
      read_u32_le ((input.drop pos).take 4) = .ok SIGNATURE_HEADER_CENTRAL_DIRECTORY →
      CentralDirectoryReader.read input pos = (.error (.err m), q) →
      zip_resync_loop input (fuel + 1) acc aedr pos = (.ok (acc, aedr, none), q)) ∧
    (∀ (input : List Nat) (sfs : List StoredFile) (p1 : Nat) (sfs' : List StoredFile)
       (aedr : Option ArchiveExtraDataRecord) (q : Nat),
      zip_prefix_loop input (input.length + 1) [] 0 = (.ok sfs, p1) →
      zip_resync_loop input (input.length + 1) sfs none p1 = (.ok (sfs', aedr, none), q) →
      ZipFileReader.read input =
        .ok { stored_files := sfs', archive_extra_data_record := aedr,
              central_directory := none }) := by
  refine ⟨?_, ?_, ?_⟩
  · intro input off fhs ds pos hne
    have hgen : ∀ (r : Except RError Bool), r ≠ .ok true →
        (match r with | .ok b => b | .error _ => false) = false := by
      intro r hr
      cases r with
      | ok b =>
        cases b with
        | true => exact absurd rfl hr
        | false => rfl
      | error e => rfl
    rcases hc : compare_signature input pos SIGNATURE_END_OF_CENTRAL_DIRECTORY_RECORD with ⟨r, p1⟩
    have hr : r ≠ .ok true := by
      rw [hc] at hne
      exact hne
    unfold cd_finish
    rw [hc]
    dsimp only
    rw [hgen r hr]
    simp
  · intro input fuel acc aedr pos m q h hcd
    rw [zip_resync_loop_succ,
      zip_resync_body_ok input (zip_resync_loop input fuel) acc aedr pos
        SIGNATURE_HEADER_CENTRAL_DIRECTORY h,
      if_neg (by decide), if_neg (by decide), if_pos rfl, hcd]
  · intro input sfs p1 sfs' aedr q h1 h2
    unfold ZipFileReader.read
    rw [h1]
    dsimp only
    rw [h2]

set_option maxRecDepth 100000 in
/-- C9 witness: the three parts at concrete states: an input of junk
bytes, and an archive with one entry, one central-directory file header
and junk instead of the trailer, which parses to `ok` with its stored
file retained and no central directory. -/
theorem C9_missing_trailer_absorbed_witness :
    (cd_finish [9, 9, 9, 9] 0 [] none 0).1 =
      .error (.err "Unable to read central directory: end of central directory not found") ∧
    zip_resync_loop arc3_input (arc3_input.length + 1) arc3_sfs none 31 =
      (.ok (arc3_sfs, none, none), 78) ∧
    ZipFileReader.read arc3_input =
      .ok { stored_files := arc3_sfs, archive_extra_data_record := none,
            central_directory := none } := by
  refine ⟨?_, ?_, ?_⟩
  · exact C9_missing_trailer_absorbed.1 [9, 9, 9, 9] 0 [] none 0 (by decide)
  · exact C9_missing_trailer_absorbed.2.1 arc3_input arc3_input.length arc3_sfs none 31
      "Unable to read central directory: end of central directory not found" 78 rfl rfl
  · exact C9_missing_trailer_absorbed.2.2 arc3_input arc3_sfs 31 arc3_sfs none 78 rfl rfl

/-- C10: the string decoder is total on every byte slice: every value
0..=255 is a valid Unicode scalar so the char conversion never panics,
the decoded string has one character per byte whose code point is the
byte's value, and two decoded strings are equal exactly when the byte
slices are byte-for-byte equal. -/
theorem C10_read_string_byte_exact :
    (∀ (bytes : List Nat), (∀ b ∈ bytes, b < 256) →
      read_string_bytes bytes = some bytes) ∧
    (∀ (b1 b2 : List Nat), (∀ b ∈ b1, b < 256) → (∀ b ∈ b2, b < 256) →
      (read_string_bytes b1 = read_string_bytes b2 ↔ b1 = b2)) := by
  refine ⟨read_string_bytes_id, ?_⟩
  intro b1 b2 h1 h2
  rw [read_string_bytes_id b1 h1, read_string_bytes_id b2 h2]
  simp

/-- C10 witness: the decoder on a concrete byte slice including the
extreme byte values, and the equality equivalence on two distinct
one-byte slices. -/
theorem C10_read_string_byte_exact_witness :
    read_string_bytes [0, 97, 255] = some [0, 97, 255] ∧
    (read_string_bytes [97] = read_string_bytes [98] ↔ [97] = ([98] : List Nat)) :=
  ⟨C10_read_string_byte_exact.1 [0, 97, 255] (by decide),
   C10_read_string_byte_exact.2 [97] [98] (by decide) (by decide)⟩
